import Mathlib

/-!
Verification development for the title-search engine of the `aht-bot`
repository: record normalisation (`parseRecord`), classification
(`groupByDocType`), chain-of-title building (`buildChainOfTitle`), text-signal
extraction (`parseMortgageText`, `parseDeedText`, `parseSatisfactionText`),
encumbrance-discharge matching (`matchSatisfactionsToMortgages`), the risk
flag engine (`identifyFlags`) and the summary aggregator (`generateSummary`).

Modelling conventions:
* JavaScript strings are modelled as `String` / `List Char`; `undefined` and
  `null` become `Option.none`; JS truthiness of a string is `s ≠ ""`.
* Epoch-second timestamps are `Int`; monetary amounts are `ℚ` (JS numbers on
  the ranges involved behave like exact rationals for every comparison the
  code performs).
* `Array.prototype.sort` is stable (ES2019); a stable sort by a total
  preorder is unique, so it is modelled by `List.insertionSort`, which
  inserts each earlier element in front of later key-equal ones.
* The regex rule chains of the text extractor are modelled by executable
  substring scanners (`\s+` is modelled as a single space, case-insensitive
  matching as matching on the upper-cased text).  No theorem below depends on
  the behaviour of a rule body: the claims about the extractor concern only
  the short-text guard, and the matcher theorems treat `extractedData` as
  arbitrary input.
-/

namespace AhtBot

/-! ## String and scanning utilities -/

/-- Does `pat` occur as the leading run of `l`? -/
def leadMatch : List Char → List Char → Bool
  | [], _ => true
  | _ :: _, [] => false
  | p :: ps, c :: cs => p == c && leadMatch ps cs

/-- Does `pat` occur anywhere inside `l`?  Models `String.prototype.includes`. -/
def hasSub (pat : List Char) : List Char → Bool
  | [] => leadMatch pat []
  | c :: t => leadMatch pat (c :: t) || hasSub pat t

/-- `s.includes(pat)` on strings. -/
def hasSubStr (s pat : String) : Bool :=
  hasSub pat.data s.data

/-- The suffix of `l` found right after the first occurrence of `pat`. -/
def afterSub (pat : List Char) : List Char → Option (List Char)
  | [] => if leadMatch pat [] then some [] else none
  | c :: t =>
    if leadMatch pat (c :: t) then some ((c :: t).drop pat.length)
    else afterSub pat t

/-- Split `l` around the first occurrence of `pat`: the part before it and the
part after it. -/
def splitAtSub (pat : List Char) : List Char → Option (List Char × List Char)
  | [] => if leadMatch pat [] then some ([], []) else none
  | c :: t =>
    if leadMatch pat (c :: t) then some ([], (c :: t).drop pat.length)
    else (splitAtSub pat t).map (fun p => (c :: p.1, p.2))

/-- The whitespace class of `String.prototype.trim`. -/
def jsWhitespace (c : Char) : Bool :=
  c = ' ' || c = '\t' || c = '\n' || c = '\r' || c = '\x0b' || c = '\x0c'

/-- Trim leading and trailing whitespace from a character list. -/
def trimChars (l : List Char) : List Char :=
  ((l.dropWhile jsWhitespace).reverse.dropWhile jsWhitespace).reverse

/-- `text.trim()`. -/
def jsTrim (s : String) : String :=
  String.mk (trimChars s.data)

/-- `s.split(' ')[0]`: the first space-separated token (the whole string when
there is no space; `""` for the empty string, as in JS). -/
def firstTok (s : String) : String :=
  String.mk (s.data.takeWhile (fun c => c ≠ ' '))

/-- ASCII lower-casing, character by character (`toLowerCase` on the
upper-case ASCII names this code handles). -/
def charLower (c : Char) : Char :=
  if 65 ≤ c.toNat ∧ c.toNat ≤ 90 then Char.ofNat (c.toNat + 32) else c

/-- `s.toLowerCase()`. -/
def jsToLower (s : String) : String :=
  String.mk (s.data.map charLower)

/-- `parts.join(' ')`. -/
def joinSpace : List String → String
  | [] => ""
  | [s] => s
  | s :: rest => s ++ " " ++ joinSpace rest

/-- Fold a digit list into a natural number. -/
def digitsToNat (ds : List Char) : Nat :=
  ds.foldl (fun n c => n * 10 + (c.toNat - 48)) 0

/-- Read a dollar amount at the head of `l` after skipping `[\s,$]*`:
digits with comma group separators and an optional two-digit cents part.
Returns the amount and the remainder of the input. -/
def parseAmountVal (l : List Char) : Option (ℚ × List Char) :=
  let cs := l.dropWhile (fun c => c = ' ' || c = ',' || c = '$')
  let intPart := cs.takeWhile (fun c => c.isDigit || c = ',')
  let digits := intPart.filter Char.isDigit
  if digits.isEmpty then none
  else
    let rest := cs.drop intPart.length
    match rest with
    | '.' :: a :: b :: r =>
      if a.isDigit && b.isDigit then
        some (((digitsToNat digits : ℚ) +
               (((a.toNat - 48) * 10 + (b.toNat - 48) : Nat) : ℚ) / 100), r)
      else some ((digitsToNat digits : ℚ), rest)
    | _ => some ((digitsToNat digits : ℚ), rest)

/-- The amount alone, discarding the remainder. -/
def parseAmountAt (l : List Char) : Option ℚ :=
  (parseAmountVal l).map Prod.fst

/-- First rule producing a value wins (the rule-chain discipline of the
extractor). -/
def firstSome {α β : Type} (f : α → Option β) : List α → Option β
  | [] => none
  | a :: t =>
    match f a with
    | some b => some b
    | none => firstSome f t

/-- A labelled amount rule: the amount read right after the first occurrence
of any of the given labels. -/
def amountRule (labels : List String) (up : List Char) : Option ℚ :=
  firstSome (fun lab => (afterSub lab.data up).bind parseAmountAt) labels

/-- Scan for `$<amount>` immediately followed (after spaces) by one of the
marker strings; models patterns such as `\$([0-9,]+)\s*(\(|DOLLARS)` and
`\$([0-9,]+)\s*(MORTGAGE|LOAN)`. -/
def amountBeforeMarks (marks : List String) : List Char → Option ℚ
  | [] => none
  | c :: t =>
    if c = '$' then
      match parseAmountVal t with
      | some (v, rest) =>
        let rest2 := rest.dropWhile (fun c => c = ' ')
        if (marks.map String.data).any (fun m => leadMatch m rest2) then some v
        else amountBeforeMarks marks t
      | none => amountBeforeMarks marks t
    else amountBeforeMarks marks t

/-- The bare large-dollar-amount fallback `\$[\s,]*([1-9][0-9]{4,})`: a digit
run of five or more digits with no leading zero, right after a dollar sign. -/
def bareLargeAmount : List Char → Option ℚ
  | [] => none
  | c :: t =>
    if c = '$' then
      let cs := t.dropWhile (fun c => c = ' ' || c = ',')
      let ds := cs.takeWhile Char.isDigit
      if 5 ≤ ds.length && (ds.headD '0') ≠ '0' then some ((digitsToNat ds : ℚ))
      else bareLargeAmount t
    else bareLargeAmount t

/-- Capture a name after a label: skip `[:\s]*`, then take characters up to
the first comma or newline, and trim.  Models the lazy captures
`([A-Z][A-Z0-9\s,\.&'-]+?)(?:\s*[,\n]|$)` of the lender rules. -/
def captureNameAfter (lab : String) (up : List Char) : Option String :=
  (afterSub lab.data up).bind fun rest =>
    let rest := rest.dropWhile (fun c => c = ':' || c = ' ')
    let cap := trimChars (rest.takeWhile (fun c => c ≠ ',' && c ≠ '\n'))
    match cap with
    | [] => none
    | c :: _ => if c.isUpper then some (String.mk cap) else none

/-- Capture from the first occurrence of `lab` up to (not including) the first
period, as the legal-description rules `(LOT ...[^.]*)` do. -/
def captureFromUntilDot (lab : String) (up : List Char) : Option (List Char) :=
  (splitAtSub lab.data up).map fun p =>
    lab.data ++ p.2.takeWhile (fun c => c ≠ '.')

/-- Push-if-absent de-duplication, as the instrument-reference collector
does with `includes`/`push`. -/
def dedupKeep (l : List String) : List String :=
  l.foldl (fun acc r => if acc.contains r then acc else acc ++ [r]) []

/-- Collect every digit run of six or more digits found right after one of the
labels (models the global `INSTRUMENT NO...`, `CFN`, `DOCUMENT NO...`
reference patterns). -/
def collectRefs (labels : List String) : List Char → List String
  | [] => []
  | c :: t =>
    let here :=
      firstSome
        (fun lab =>
          if leadMatch lab.data (c :: t) then
            let rest := ((c :: t).drop lab.data.length).dropWhile
              (fun c => c = ' ' || c = ':' || c = '#' || c = '.')
            let ds := rest.takeWhile Char.isDigit
            if 6 ≤ ds.length then some (String.mk ds) else none
          else none)
        labels
    match here with
    | some r => r :: collectRefs labels t
    | none => collectRefs labels t

/-- First reference found by `collectRefs`, for the satisfaction parser whose
instrument patterns keep only the first match. -/
def firstRef (labels : List String) (l : List Char) : Option String :=
  (collectRefs labels l).head?

/-- Collect every `BOOK <n>, PAGE <n>` pair, rendered as
`Book <n>, Page <n>`. -/
def collectBookPage : List Char → List String
  | [] => []
  | c :: t =>
    let here :=
      if leadMatch "BOOK ".data (c :: t) then
        let rest := (c :: t).drop 5
        let bs := rest.takeWhile Char.isDigit
        if bs.isEmpty then none
        else
          let rest2 := (rest.drop bs.length).dropWhile (fun c => c = ' ' || c = ',')
          if leadMatch "PAGE ".data rest2 then
            let ps := (rest2.drop 5).takeWhile Char.isDigit
            if ps.isEmpty then none
            else some ("Book " ++ String.mk bs ++ ", Page " ++ String.mk ps)
          else none
      else none
    match here with
    | some r => r :: collectBookPage t
    | none => collectBookPage t

/-- Read a decimal number (digits, optional fraction of any length) at the
head of `l`; returns the value and the remainder. -/
def parseDecimalVal (l : List Char) : Option (ℚ × List Char) :=
  let ds := l.takeWhile Char.isDigit
  if ds.isEmpty then none
  else
    let rest := l.drop ds.length
    match rest with
    | '.' :: r =>
      let fs := r.takeWhile Char.isDigit
      some ((digitsToNat ds : ℚ) + (digitsToNat fs : ℚ) / ((10 : ℚ) ^ fs.length),
            r.drop fs.length)
    | _ => some ((digitsToNat ds : ℚ), rest)

/-- Interest-rate rule: a decimal right after `INTEREST RATE` / `RATE OF`,
followed (after spaces) by a percent sign. -/
def rateRule (up : List Char) : Option ℚ :=
  firstSome
    (fun lab =>
      (afterSub lab.data up).bind fun rest =>
        let rest := rest.dropWhile (fun c => c = ':' || c = ' ')
        (parseDecimalVal rest).bind fun p =>
          if (p.2.dropWhile (fun c => c = ' ')).headD ' ' = '%' then some p.1
          else none)
    ["INTEREST RATE", "RATE OF"]

/-- Is `l` a numeric date: one or two digits, a slash or hyphen, one or two
digits, a slash or hyphen, then two to four digits? -/
def isNumericDate (l : List Char) : Bool :=
  let d1 := l.takeWhile Char.isDigit
  let r1 := l.drop d1.length
  match r1 with
  | s1 :: r2 =>
    if (s1 = '/' || s1 = '-') && 1 ≤ d1.length && d1.length ≤ 2 then
      let d2 := r2.takeWhile Char.isDigit
      let r3 := r2.drop d2.length
      match r3 with
      | s2 :: r4 =>
        if (s2 = '/' || s2 = '-') && 1 ≤ d2.length && d2.length ≤ 2 then
          let d3 := r4.takeWhile Char.isDigit
          (2 ≤ d3.length && d3.length ≤ 4) && r4.drop d3.length = []
        else false
      | [] => false
    else false
  | [] => false

/-- Capture a numeric date right after one of the labels. -/
def numericDateAfter (labels : List String) (up : List Char) : Option String :=
  firstSome
    (fun lab =>
      (afterSub lab.data up).bind fun rest =>
        let rest := rest.dropWhile (fun c => c = ':' || c = ' ')
        let cap := rest.takeWhile (fun c => c.isDigit || c = '/' || c = '-')
        if isNumericDate cap then some (String.mk cap) else none)
    labels

/-- Capture a long-form date `MONTH d{1,2},? d{4}` right after a label. -/
def longDateAfter (labels : List String) (up : List Char) : Option String :=
  firstSome
    (fun lab =>
      (afterSub lab.data up).bind fun rest =>
        let rest := rest.dropWhile (fun c => c = ':' || c = ' ')
        let mon := rest.takeWhile Char.isUpper
        if mon.isEmpty then none
        else
          let r1 := (rest.drop mon.length).dropWhile (fun c => c = ' ')
          let day := r1.takeWhile Char.isDigit
          if 1 ≤ day.length && day.length ≤ 2 then
            let r2 := ((r1.drop day.length).dropWhile (fun c => c = ',')).dropWhile
              (fun c => c = ' ')
            let yr := r2.takeWhile Char.isDigit
            if yr.length = 4 then
              some (String.mk (mon ++ [' '] ++ day ++ [',', ' '] ++ yr))
            else none
          else none)
    labels

/-! ## Data model -/

/-- `ExtractedData` for a mortgage (output of `parseMortgageText`). -/
structure MortgageData where
  principalAmount : Option ℚ := none
  lenderName : Option String := none
  instrumentReferences : List String := []
  isModification : Bool := false
  isRefinance : Bool := false
  maturityDate : Option String := none
  interestRate : Option ℚ := none
  propertyAddress : Option String := none
  confidence : String := "low"
deriving DecidableEq, Repr

/-- `ExtractedData` for a deed (output of `parseDeedText`). -/
structure DeedData where
  consideration : Option ℚ := none
  legalDescription : Option String := none
  propertyAddress : Option String := none
  deedType : Option String := none
  confidence : String := "low"
deriving DecidableEq, Repr

/-- `ExtractedData` for a satisfaction (output of `parseSatisfactionText`). -/
structure SatisfactionData where
  satisfiedInstrumentNumber : Option String := none
  satisfiedBookPage : Option String := none
  originalLender : Option String := none
  originalAmount : Option ℚ := none
  satisfiedDate : Option String := none
  confidence : String := "low"
deriving DecidableEq, Repr

/-- The category-specific extracted-data record attached to a document. -/
inductive ExtractedData where
  | mortgage (d : MortgageData)
  | satisfaction (d : SatisfactionData)
  | deed (d : DeedData)
deriving DecidableEq, Repr

/-- The canonical document entity produced by `parseRecord`.  Fields that JS
may leave `undefined` are `Option`s.  Default values keep concrete example
documents short; `parseRecord` assigns every field. -/
structure Document where
  instrumentNumber : Option String := none
  grantors : List String := []
  grantees : List String := []
  recordDate : String := ""
  recordTimestamp : Int := 0
  docType : Option String := none
  docTypeShort : Option String := none
  legalDescription : Option String := none
  salesPrice : Option ℚ := none
  pageCount : Option Nat := none
  documentId : Option String := none
  uuid : Option String := none
  bookNum : Option String := none
  pageNum : Option String := none
  extractedData : Option ExtractedData := none
deriving DecidableEq, Repr

/-- Reading `satisfiedInstrumentNumber` off `sat.extractedData || {}`: absent
on non-satisfaction data, as the property access yields `undefined` in JS. -/
def edSatInstr : Option ExtractedData → Option String
  | some (.satisfaction d) => d.satisfiedInstrumentNumber
  | _ => none

/-- Reading `satisfiedBookPage` off the extracted data. -/
def edSatBookPage : Option ExtractedData → Option String
  | some (.satisfaction d) => d.satisfiedBookPage
  | _ => none

/-- Reading `originalLender` off the extracted data. -/
def edSatLender : Option ExtractedData → Option String
  | some (.satisfaction d) => d.originalLender
  | _ => none

/-- Reading `originalAmount` off the extracted data. -/
def edSatAmount : Option ExtractedData → Option ℚ
  | some (.satisfaction d) => d.originalAmount
  | _ => none

/-- Reading `principalAmount` off the extracted data. -/
def edMtgPrincipal : Option ExtractedData → Option ℚ
  | some (.mortgage d) => d.principalAmount
  | _ => none

/-- Reading `lenderName` off the extracted data. -/
def edMtgLender : Option ExtractedData → Option String
  | some (.mortgage d) => d.lenderName
  | _ => none

/-- JS truthiness of an optional string. -/
def truthyStr : Option String → Bool
  | some s => s ≠ ""
  | none => false

/-- JS truthiness of an optional number. -/
def truthyQ : Option ℚ → Bool
  | some q => q ≠ 0
  | none => false

/-- The string inside an optional known to be present (`getD ""`). -/
def optStr (o : Option String) : String :=
  o.getD ""

/-- A risk flag. -/
structure Flag where
  severity : String
  type : String
  message : String
  documents : List Document
deriving DecidableEq, Repr

/-- One entry of the chain of title. -/
structure ChainEntry where
  sequence : Nat
  date : String
  instrumentNumber : Option String
  grantors : String
  grantees : String
  salesPrice : Option ℚ
  legalDescription : Option String
  documentId : Option String
deriving DecidableEq, Repr

/-- The mortgage-analysis record consumed by `generateSummary` (the `open`
field is called `openMortgages` here because `open` is a Lean keyword). -/
structure MortgageAnalysis where
  total : Nat
  satisfied : Nat
  openMortgages : List Document
deriving DecidableEq, Repr

/-- The summary record returned by `generateSummary`. -/
structure Summary where
  totalDocuments : Nat
  chainOfTitleLength : Nat
  totalMortgages : Nat
  satisfiedMortgages : Nat
  openMortgages : Nat
  openLiens : Nat
  highSeverityFlags : Nat
  mediumSeverityFlags : Nat
  riskLevel : String
deriving DecidableEq, Repr

/-- An accepted mortgage/satisfaction pair of the multi-signal matcher. -/
structure MatchEntry where
  satisfaction : Document
  mortgage : Document
  score : Int
  confidence : String
  matchReasons : List String
deriving DecidableEq, Repr

/-- The result of `matchSatisfactionsToMortgages` (the JS field `matches` is
called `matchList` here because `matches` is a Lean keyword). -/
structure MatchResult where
  matchList : List MatchEntry
  unmatchedMortgages : List Document
  unmatchedSatisfactions : List Document
deriving DecidableEq, Repr

/-- The evolving state of the matcher loop: accepted matches, the pool of
not-yet-matched mortgages, and the keys added to `usedSatisfactions`. -/
structure MatchState where
  matchList : List MatchEntry
  pool : List Document
  usedKeys : List (Option String)
deriving DecidableEq, Repr

/-- A raw record as returned by the registry search service (`§6`: a record
exposes at minimum a record timestamp, so `RecordDate` is total; every other
field may be absent). -/
structure RawRecord where
  Instrument : Option String := none
  PartiesOne : Option (List String) := none
  PartiesTwo : Option (List String) := none
  RecordDate : Int := 0
  DocType : Option String := none
  Legal : Option String := none
  SalesPrice : Option ℚ := none
  PageCount : Option Nat := none
  ID : Option String := none
  UUID : Option String := none
  BookNum : Option String := none
  PageNum : Option String := none
deriving DecidableEq, Repr

/-! ## Record normalizer (`src/src/api/hillsborough.js`) -/

/-- The `TITLE_DOC_TYPES` list of `hillsborough.js`. -/
def TITLE_DOC_TYPES : List String :=
  ["(D) DEED", "(MTG) MORTGAGE", "(SAT) SATISFACTION", "(LN) LIEN",
   "(LP) LIS PENDENS", "(EAS) EASEMENT", "(RES) RESTRICTIONS",
   "(JUD) JUDGMENT", "(REL) RELEASE", "(ASG) ASSIGNMENT",
   "(TAXDEED) TAX DEED"]

/-- Display-date rendering.  `formatDate` in the source renders the timestamp
through `toLocaleDateString`; the locale text is irrelevant to every claim,
so it is modelled as an injective rendering of the timestamp. -/
def formatDate (timestamp : Int) : String :=
  "DATE:" ++ toString timestamp

/-- The characters strictly before the first closing parenthesis of `l`,
when `l` contains one. -/
def firstClose : List Char → Option (List Char)
  | [] => none
  | c :: rest => if c = ')' then some [] else (firstClose rest).map (c :: ·)

/-- The capture group of the first match of the regex `\(([^)]+)\)` on `l`:
scan for an opening parenthesis followed by at least one character and then a
closing parenthesis; on a failed attempt the scan restarts one character
further, as the regex engine does. -/
def extractParen : List Char → Option (List Char)
  | [] => none
  | c :: rest =>
    if c = '(' then
      match firstClose rest with
      | some grp => if grp.isEmpty then extractParen rest else some grp
      | none => extractParen rest
    else extractParen rest

/-- `record.DocType?.match(/\(([^)]+)\)/)?.[1] || record.DocType` for a
present `DocType` string. -/
def extractShort (docType : String) : String :=
  match extractParen docType.data with
  | some g => String.mk g
  | none => docType

/-- `parseRecord` of `hillsborough.js`: direct field mapping with `|| []`
defaults on the party lists and the parenthetical-code derivation of
`docTypeShort` (when `DocType` is absent, the optional chain leaves
`docTypeShort` undefined). -/
def parseRecord (record : RawRecord) : Document where
  instrumentNumber := record.Instrument
  grantors := record.PartiesOne.getD []
  grantees := record.PartiesTwo.getD []
  recordDate := formatDate record.RecordDate
  recordTimestamp := record.RecordDate
  docType := record.DocType
  docTypeShort := record.DocType.map extractShort
  legalDescription := record.Legal
  salesPrice := record.SalesPrice
  pageCount := record.PageCount
  documentId := record.ID
  uuid := record.UUID
  bookNum := record.BookNum
  pageNum := record.PageNum
  extractedData := none

/-! ## Text-signal extractor (`src/unnamed/part_003`) -/

/-- The short-text guard shared by all three parsers:
`!text || text.trim().length < 50`. -/
def shortText (text : String) : Bool :=
  text == "" || (jsTrim text).length < 50

/-- The ordered principal-amount rules of `parseMortgageText`, each filtered
by the `10,000 ≤ amount ≤ 50,000,000` sanity check (a rule that matches but
fails the check yields nothing and the next rule is tried, as in the JS
loop). -/
def mortgageAmount (up : List Char) : Option ℚ :=
  let sane : ℚ → Option ℚ := fun a =>
    if 10000 ≤ a && a ≤ 50000000 then some a else none
  firstSome (fun rule => (rule up).bind sane)
    [amountRule ["PRINCIPAL SUM OF $", "PRINCIPAL AMOUNT OF $",
                 "PRINCIPAL SUM $", "PRINCIPAL AMOUNT $"],
     amountRule ["IN THE AMOUNT OF $"],
     amountBeforeMarks ["(", "DOLLARS"],
     amountRule ["FACE AMOUNT OF $", "FACE AMOUNT $"],
     amountRule ["LOAN AMOUNT OF $", "LOAN AMOUNT $"],
     bareLargeAmount]

/-- The institution-name fragments of the third lender rule. -/
def bankFragments : List String :=
  ["WELLS FARGO", "BANK OF AMERICA", "CHASE", "JPMORGAN", "QUICKEN LOANS",
   "ROCKET MORTGAGE", "UNITED SHORE", "CALIBER HOME", "FREEDOM MORTGAGE",
   "PENNYMAC", "GUILD MORTGAGE", "CROSSCOUNTRY MORTGAGE",
   "MOVEMENT MORTGAGE", "LOAN DEPOT", "NAVY FEDERAL", "USAA", "FIFTH THIRD",
   "PNC BANK", "REGIONS BANK", "SUNTRUST", "TRUIST", "CITIZENS BANK"]

/-- Bank-fragment rule: the first fragment present anywhere in the text. -/
def bankRule (up : List Char) : Option String :=
  firstSome (fun b => if hasSub b.data up then some b else none) bankFragments

/-- The `..., N.A.` suffix rule: the upper-case word run before the first
`N.A.` occurrence, with the suffix itself. -/
def naSuffixRule (up : List Char) : Option String :=
  (splitAtSub "N.A.".data up).bind fun p =>
    let nm := trimChars
      ((p.1.reverse.takeWhile
        (fun c => c.isUpper || c = ' ' || c = '&' || c = '-' || c = ',')).reverse)
    match nm with
    | [] => none
    | c :: _ => if c.isUpper then some (String.mk nm ++ " N.A.") else none

/-- The ordered lender rules of `parseMortgageText`, each filtered by the
length and stop-word checks performed inside the JS loop. -/
def mortgageLender (up : List Char) : Option String :=
  let ok : String → Option String := fun name =>
    if 3 < name.length &&
       !(["THE", "AND", "FOR", "THIS", "THAT"].contains name) then some name
    else none
  firstSome (fun rule => (rule up).bind ok)
    [captureNameAfter "MORTGAGEE", captureNameAfter "LENDER",
     captureNameAfter "IN FAVOR OF", bankRule, naSuffixRule]

/-- The instrument-reference collector of `parseMortgageText`: all matches of
the four reference patterns, de-duplicated in discovery order. -/
def mortgageRefs (up : List Char) : List String :=
  dedupKeep
    (collectRefs ["INSTRUMENT NO", "INSTRUMENT NUMBER", "INSTRUMENT #",
                  "INSTRUMENT#"] up
     ++ collectBookPage up
     ++ collectRefs ["CFN"] up
     ++ collectRefs ["DOCUMENT NO", "DOCUMENT NUMBER", "DOCUMENT #",
                     "DOCUMENT#"] up)

/-- `parseMortgageText` with the short-text guard already passed. -/
def parseMortgageTextBody (text : String) : MortgageData :=
  let up := text.toUpper.data
  let principalAmount := mortgageAmount up
  let lenderName := mortgageLender up
  let interestRate := rateRule up
  let maturityDate :=
    numericDateAfter ["MATURITY DATE", "MATURITY", "MATURES", "MATURE"] up
  let confidenceScore :=
    (if principalAmount.isSome then 3 else 0) +
    (if lenderName.isSome then 2 else 0) +
    (if interestRate.isSome then 1 else 0) +
    (if maturityDate.isSome then 1 else 0)
  { principalAmount := principalAmount
    lenderName := lenderName
    instrumentReferences := mortgageRefs up
    isModification := hasSub "MODIFICATION".data up || hasSub "LOAN MOD".data up
    isRefinance := hasSub "REFINANC".data up || hasSub "REFI ".data up
    maturityDate := maturityDate
    interestRate := interestRate
    propertyAddress := none
    confidence :=
      if 4 ≤ confidenceScore then "high"
      else if 2 ≤ confidenceScore then "medium" else "low" }

/-- `parseMortgageText`: the all-null record short-circuits on short text,
otherwise the rule engine runs. -/
def parseMortgageText (text : String) : MortgageData :=
  if shortText text then {} else parseMortgageTextBody text

/-- The ordered consideration rules of `parseDeedText` with the `≥ 1,000`
filter. -/
def deedConsideration (up : List Char) : Option ℚ :=
  let sane : ℚ → Option ℚ := fun a => if 1000 ≤ a then some a else none
  firstSome (fun rule => (rule up).bind sane)
    [amountRule ["FOR AND IN CONSIDERATION OF $"],
     amountRule ["CONSIDERATION OF $", "CONSIDERATION $"],
     amountRule ["SUM OF $"],
     amountRule ["DOCUMENTARY STAMP $", "DOCUMENTARY STAMPS $"]]

/-- The ordered legal-description rules of `parseDeedText`, captures
truncated to 200 characters. -/
def deedLegal (up : List Char) : Option String :=
  let fin : List Char → Option String := fun cap =>
    some (String.mk ((trimChars cap).take 200))
  firstSome (fun r => r)
    [(captureFromUntilDot "LOT " up).bind
       (fun cap => if hasSub "BLOCK".data cap then fin cap else none),
     (captureFromUntilDot "UNIT " up).bind
       (fun cap => if hasSub "CONDO".data cap then fin cap else none),
     (captureFromUntilDot "SEC" up).bind
       (fun cap =>
         if hasSub "TOWNSHIP".data cap && hasSub "RANGE".data cap then fin cap
         else none),
     firstSome
       (fun lab =>
         (afterSub lab.data up).bind fun rest =>
           let rest := rest.dropWhile (fun c => c = ':' || c = ' ' || c = '.')
           let ds := rest.takeWhile (fun c => c.isDigit || c = '-')
           if ds.isEmpty then none else some (String.mk (ds.take 200)))
       ["PARCEL ID", "PARCEL IDENTIFICATION", "PARCEL NUMBER", "PARCEL NO",
        "PARCEL"]]

/-- The exact-phrase deed-type precedence chain of `parseDeedText`. -/
def deedTypeOf (up : List Char) : Option String :=
  if hasSub "WARRANTY DEED".data up then some "WARRANTY"
  else if hasSub "QUITCLAIM".data up || hasSub "QUIT CLAIM".data up then
    some "QUIT CLAIM"
  else if hasSub "SPECIAL WARRANTY".data up then some "SPECIAL WARRANTY"
  else if hasSub "TAX DEED".data up then some "TAX DEED"
  else if hasSub "PERSONAL REPRESENTATIVE".data up then some "PR DEED"
  else if hasSub "TRUSTEE".data up then some "TRUSTEE DEED"
  else none

/-- `parseDeedText` with the short-text guard already passed. -/
def parseDeedTextBody (text : String) : DeedData :=
  let up := text.toUpper.data
  let direct := deedConsideration up
  let consideration :=
    match direct with
    | some a => some a
    | none =>
      if hasSub "DOCUMENTARY STAMP".data up then
        (amountBeforeMarks ["DOC"] up).map (fun stamps => stamps / (7 / 10) * 100)
      else none
  let legalDescription := deedLegal up
  let deedType := deedTypeOf up
  let confidenceScore :=
    (if consideration.isSome then 2 else 0) +
    (if legalDescription.isSome then 2 else 0) +
    (if deedType.isSome then 1 else 0)
  { consideration := consideration
    legalDescription := legalDescription
    propertyAddress := none
    deedType := deedType
    confidence :=
      if 4 ≤ confidenceScore then "high"
      else if 2 ≤ confidenceScore then "medium" else "low" }

/-- `parseDeedText`. -/
def parseDeedText (text : String) : DeedData :=
  if shortText text then {} else parseDeedTextBody text

/-- The satisfied-instrument reference of `parseSatisfactionText`: the first
of the three ordered patterns that matches decides between an instrument
number and a book/page reference. -/
def satInstrRef (up : List Char) : Option String × Option String :=
  match firstRef ["MORTGAGE NO", "MORTGAGE NUMBER", "MORTGAGE #", "MORTGAGE#",
                  "INSTRUMENT NO", "INSTRUMENT NUMBER", "INSTRUMENT #",
                  "INSTRUMENT#", "DOCUMENT NO", "DOCUMENT NUMBER",
                  "DOCUMENT #", "DOCUMENT#"] up with
  | some n => (some n, none)
  | none =>
    match (collectBookPage up).head? with
    | some bp => (none, some bp)
    | none =>
      match firstRef ["CFN"] up with
      | some n => (some n, none)
      | none => (none, none)

/-- The ordered original-lender rules of `parseSatisfactionText` (length
filter only; this parser has no stop-word check). -/
def satLenderOf (up : List Char) : Option String :=
  let ok : String → Option String := fun name =>
    if 3 < name.length then some name else none
  firstSome (fun rule => (rule up).bind ok)
    [captureNameAfter "MADE TO", captureNameAfter "EXECUTED TO",
     captureNameAfter "MADE IN FAVOR OF", captureNameAfter "EXECUTED IN FAVOR OF",
     captureNameAfter "IN FAVOR OF", captureNameAfter "MORTGAGEE WAS",
     captureNameAfter "MORTGAGEE", captureNameAfter "LENDER WAS",
     captureNameAfter "LENDER",
     fun l =>
       firstSome (fun b => if hasSub b.data l then some b else none)
         ["WELLS FARGO", "BANK OF AMERICA", "CHASE", "JPMORGAN", "QUICKEN",
          "ROCKET", "PENNYMAC", "CALIBER", "FREEDOM MORTGAGE"]]

/-- The ordered original-amount rules of `parseSatisfactionText` with the
`≥ 10,000` filter. -/
def satAmountOf (up : List Char) : Option ℚ :=
  let sane : ℚ → Option ℚ := fun a => if 10000 ≤ a then some a else none
  firstSome (fun rule => (rule up).bind sane)
    [amountRule ["ORIGINAL AMOUNT OF $", "ORIGINAL AMOUNT: $",
                 "ORIGINAL AMOUNT $", "ORIGINAL SUM OF $", "ORIGINAL SUM $",
                 "PRINCIPAL AMOUNT OF $", "PRINCIPAL AMOUNT: $",
                 "PRINCIPAL AMOUNT $", "PRINCIPAL SUM OF $", "PRINCIPAL SUM $"],
     amountBeforeMarks ["MORTGAGE", "LOAN"]]

/-- `parseSatisfactionText` with the short-text guard already passed. -/
def parseSatisfactionTextBody (text : String) : SatisfactionData :=
  let up := text.toUpper.data
  let (instr, bookPage) := satInstrRef up
  let originalLender := satLenderOf up
  let originalAmount := satAmountOf up
  let satisfiedDate :=
    match numericDateAfter ["DATED", "RECORDED"] up with
    | some d => some d
    | none => longDateAfter ["DATED", "RECORDED"] up
  let confidenceScore :=
    (if instr.isSome || bookPage.isSome then 3 else 0) +
    (if originalLender.isSome then 2 else 0) +
    (if originalAmount.isSome then 1 else 0)
  { satisfiedInstrumentNumber := instr
    satisfiedBookPage := bookPage
    originalLender := originalLender
    originalAmount := originalAmount
    satisfiedDate := satisfiedDate
    confidence :=
      if 4 ≤ confidenceScore then "high"
      else if 2 ≤ confidenceScore then "medium" else "low" }

/-- `parseSatisfactionText`. -/
def parseSatisfactionText (text : String) : SatisfactionData :=
  if shortText text then {} else parseSatisfactionTextBody text

/-! ## Classifier and sorts (`src/src/search/titleSearch.js`, second revision) -/

/-- Descending record-time order: `(a, b) => b.recordTimestamp - a.recordTimestamp`. -/
def tsDesc (a b : Document) : Prop :=
  b.recordTimestamp ≤ a.recordTimestamp

/-- Ascending record-time order: `(a, b) => a.recordTimestamp - b.recordTimestamp`. -/
def tsAsc (a b : Document) : Prop :=
  a.recordTimestamp ≤ b.recordTimestamp

instance : DecidableRel tsDesc := fun a b =>
  inferInstanceAs (Decidable (b.recordTimestamp ≤ a.recordTimestamp))

instance : DecidableRel tsAsc := fun a b =>
  inferInstanceAs (Decidable (a.recordTimestamp ≤ b.recordTimestamp))

instance : IsTotal Document tsDesc :=
  ⟨fun a b => le_total b.recordTimestamp a.recordTimestamp⟩

instance : IsTrans Document tsDesc :=
  ⟨fun _ _ _ h h2 => le_trans h2 h⟩

instance : IsTotal Document tsAsc :=
  ⟨fun a b => le_total a.recordTimestamp b.recordTimestamp⟩

instance : IsTrans Document tsAsc :=
  ⟨fun _ _ _ h h2 => le_trans h h2⟩

/-- The eleven named buckets of `groupByDocType` plus `other`. -/
inductive BucketId where
  | deeds | mortgages | satisfactions | liens | lisPendens | easements
  | restrictions | judgments | releases | assignments | modifications | other
deriving DecidableEq, Repr

/-- The fixed case-sensitive `switch` table of `groupByDocType`. -/
def bucketOf (docTypeShort : Option String) : BucketId :=
  match docTypeShort with
  | some "D" => .deeds
  | some "MTG" | some "MTGREV" | some "MTGNDOC" | some "MTGNT"
  | some "MTGNIT" => .mortgages
  | some "SAT" | some "SATCORPTX" => .satisfactions
  | some "LN" | some "MEDLN" | some "LNCORPTX" => .liens
  | some "LP" => .lisPendens
  | some "EAS" => .easements
  | some "RES" => .restrictions
  | some "JUD" => .judgments
  | some "REL" | some "RELLP" => .releases
  | some "ASG" | some "ASGT" | some "ASINT" => .assignments
  | some "MOD" => .modifications
  | _ => .other

/-- The bucket record built by `groupByDocType`. -/
structure Groups where
  deeds : List Document := []
  mortgages : List Document := []
  satisfactions : List Document := []
  liens : List Document := []
  lisPendens : List Document := []
  easements : List Document := []
  restrictions : List Document := []
  judgments : List Document := []
  releases : List Document := []
  assignments : List Document := []
  modifications : List Document := []
  other : List Document := []
deriving DecidableEq, Repr

/-- Bucket projection. -/
def getBucket (g : Groups) : BucketId → List Document
  | .deeds => g.deeds
  | .mortgages => g.mortgages
  | .satisfactions => g.satisfactions
  | .liens => g.liens
  | .lisPendens => g.lisPendens
  | .easements => g.easements
  | .restrictions => g.restrictions
  | .judgments => g.judgments
  | .releases => g.releases
  | .assignments => g.assignments
  | .modifications => g.modifications
  | .other => g.other

/-- One iteration of the classification loop: push the document onto the
bucket selected by the `switch` on `docTypeShort`. -/
def pushDoc (g : Groups) (d : Document) : Groups :=
  match bucketOf d.docTypeShort with
  | .deeds => { g with deeds := g.deeds ++ [d] }
  | .mortgages => { g with mortgages := g.mortgages ++ [d] }
  | .satisfactions => { g with satisfactions := g.satisfactions ++ [d] }
  | .liens => { g with liens := g.liens ++ [d] }
  | .lisPendens => { g with lisPendens := g.lisPendens ++ [d] }
  | .easements => { g with easements := g.easements ++ [d] }
  | .restrictions => { g with restrictions := g.restrictions ++ [d] }
  | .judgments => { g with judgments := g.judgments ++ [d] }
  | .releases => { g with releases := g.releases ++ [d] }
  | .assignments => { g with assignments := g.assignments ++ [d] }
  | .modifications => { g with modifications := g.modifications ++ [d] }
  | .other => { g with other := g.other ++ [d] }

/-- The classification loop before the per-bucket sort. -/
def groupRaw (documents : List Document) : Groups :=
  documents.foldl pushDoc {}

/-- The final per-bucket stable sort, newest first. -/
def sortGroups (g : Groups) : Groups where
  deeds := g.deeds.insertionSort tsDesc
  mortgages := g.mortgages.insertionSort tsDesc
  satisfactions := g.satisfactions.insertionSort tsDesc
  liens := g.liens.insertionSort tsDesc
  lisPendens := g.lisPendens.insertionSort tsDesc
  easements := g.easements.insertionSort tsDesc
  restrictions := g.restrictions.insertionSort tsDesc
  judgments := g.judgments.insertionSort tsDesc
  releases := g.releases.insertionSort tsDesc
  assignments := g.assignments.insertionSort tsDesc
  modifications := g.modifications.insertionSort tsDesc
  other := g.other.insertionSort tsDesc

/-- `groupByDocType`: classify into buckets, then sort every bucket
descending by `recordTimestamp` (stably). -/
def groupByDocType (documents : List Document) : Groups :=
  sortGroups (groupRaw documents)

/-- All twelve bucket ids, in declaration order. -/
def allBuckets : List BucketId :=
  [.deeds, .mortgages, .satisfactions, .liens, .lisPendens, .easements,
   .restrictions, .judgments, .releases, .assignments, .modifications, .other]

/-- The multiset union of the twelve buckets. -/
def bucketsMultiset (g : Groups) : Multiset Document :=
  ↑g.deeds + ↑g.mortgages + ↑g.satisfactions + ↑g.liens + ↑g.lisPendens +
  ↑g.easements + ↑g.restrictions + ↑g.judgments + ↑g.releases +
  ↑g.assignments + ↑g.modifications + ↑g.other

/-! ## Chain-of-title builder -/

/-- Number a deed list into chain entries, starting at `n` (the JS
`sorted.map((deed, index) => ...)` with `sequence: index + 1`). -/
def numberFrom (n : Nat) : List Document → List ChainEntry
  | [] => []
  | deed :: rest =>
    { sequence := n
      date := deed.recordDate
      instrumentNumber := deed.instrumentNumber
      grantors := String.intercalate ", " deed.grantors
      grantees := String.intercalate ", " deed.grantees
      salesPrice := deed.salesPrice
      legalDescription := deed.legalDescription
      documentId := deed.documentId } :: numberFrom (n + 1) rest

/-- `buildChainOfTitle`: empty input short-circuits to an empty chain;
otherwise sort ascending by record time (stably) and number from 1. -/
def buildChainOfTitle (deeds : List Document) : List ChainEntry :=
  if deeds.isEmpty then []
  else numberFrom 1 (deeds.insertionSort tsAsc)

/-! ## Risk flag engine -/

/-- `d.docType.includes("TAX")` for an optional `docType`.  A JS document
with `docType` undefined would make `identifyFlags` raise a `TypeError`;
the model treats a missing `docType` as not containing the substring. -/
def optContainsTAX (o : Option String) : Bool :=
  match o with
  | some s => hasSubStr s "TAX"
  | none => false

/-- Round half up, as `Math.round` does. -/
def jsRound (x : ℚ) : Int :=
  ⌊x + 1 / 2⌋

/-- `identifyFlags` of the second `titleSearch.js` revision.  The four
sequential `push` sites are modelled as the concatenation of four conditional
singleton lists, in push order; the `deeds.length >= 2` guard is subsumed by
matching on the sorted deed list. -/
def identifyFlags (documents : List Document) : List Flag :=
  let lisPendens := documents.filter (fun d => d.docTypeShort == some "LP")
  let lpFlags : List Flag :=
    if 0 < lisPendens.length then
      [{ severity := "high", type := "lis_pendens",
         message := "Found " ++ toString lisPendens.length ++
           " lis pendens (pending litigation)",
         documents := lisPendens }]
    else []
  let judgments := documents.filter (fun d => d.docTypeShort == some "JUD")
  let judFlags : List Flag :=
    if 0 < judgments.length then
      [{ severity := "high", type := "judgment",
         message := "Found " ++ toString judgments.length ++ " judgment(s)",
         documents := judgments }]
    else []
  let taxLiens := documents.filter
    (fun d => d.docTypeShort == some "LNCORPTX" || optContainsTAX d.docType)
  let taxFlags : List Flag :=
    if 0 < taxLiens.length then
      [{ severity := "high", type := "tax_lien",
         message := "Found " ++ toString taxLiens.length ++
           " tax-related lien(s)",
         documents := taxLiens }]
    else []
  let deeds := documents.filter (fun d => d.docTypeShort == some "D")
  let qfFlags : List Flag :=
    match deeds.insertionSort tsDesc with
    | recentDeed :: previousDeed :: _ =>
      let daysBetween : ℚ :=
        ((recentDeed.recordTimestamp - previousDeed.recordTimestamp : Int) : ℚ)
          / 86400
      if daysBetween < 90 then
        [{ severity := "medium", type := "quick_flip",
           message := "Property sold twice within " ++
             toString (jsRound daysBetween) ++ " days",
           documents := [recentDeed, previousDeed] }]
      else []
    | _ => []
  lpFlags ++ judFlags ++ taxFlags ++ qfFlags

/-! ## Summary aggregator -/

/-- `generateSummary` of the second `titleSearch.js` revision. -/
def generateSummary (documents : List Document) (chainOfTitle : List ChainEntry)
    (mortgageAnalysis : MortgageAnalysis) (openLiens : List Document)
    (flags : List Flag) : Summary :=
  let highFlags := flags.filter (fun f => f.severity == "high")
  let mediumFlags := flags.filter (fun f => f.severity == "medium")
  { totalDocuments := documents.length
    chainOfTitleLength := chainOfTitle.length
    totalMortgages := mortgageAnalysis.total
    satisfiedMortgages := mortgageAnalysis.satisfied
    openMortgages := mortgageAnalysis.openMortgages.length
    openLiens := openLiens.length
    highSeverityFlags := highFlags.length
    mediumSeverityFlags := mediumFlags.length
    riskLevel :=
      if 0 < highFlags.length then "HIGH"
      else if 0 < mediumFlags.length ∨ 0 < openLiens.length ∨
              1 < mortgageAnalysis.openMortgages.length then "MEDIUM"
      else "LOW" }

/-- The risk level as the specification words it (claim C3), with an explicit
scanned-mode switch: the more-than-one-open-mortgage disjunct is supposed to
apply only in scanned mode. -/
def specRiskLevel (scanned : Bool) (highCount mediumCount openLienCount
    openMortgageCount : Nat) : String :=
  if 0 < highCount then "HIGH"
  else if 0 < mediumCount || 0 < openLienCount ||
          (scanned && 1 < openMortgageCount) then "MEDIUM"
  else "LOW"

/-! ## Multi-signal encumbrance-discharge matcher (`src/unnamed/part_003`) -/

/-- Methods 1 to 5 of the score loop: the independent signals, each
contributing at most once, with the reasons pushed in method order. -/
def scoreSignals (sat mtg : Document) : Int × List String :=
  let satData := sat.extractedData
  let mtgData := mtg.extractedData
  let c1 : Int × List String :=
    if truthyStr (edSatInstr satData) && truthyStr mtg.instrumentNumber &&
       edSatInstr satData == mtg.instrumentNumber then
      (100, ["Instrument # exact match"])
    else (0, [])
  let c2 : Int × List String :=
    if truthyStr (edSatBookPage satData) && truthyStr mtg.bookNum &&
       truthyStr mtg.pageNum &&
       hasSubStr (optStr (edSatBookPage satData)) (optStr mtg.bookNum) &&
       hasSubStr (optStr (edSatBookPage satData)) (optStr mtg.pageNum) then
      (90, ["Book/Page match"])
    else (0, [])
  let c3 : Int × List String :=
    if truthyQ (edSatAmount satData) && truthyQ (edMtgPrincipal mtgData) &&
       |((edSatAmount satData).getD 0) - ((edMtgPrincipal mtgData).getD 0)| /
         ((edMtgPrincipal mtgData).getD 0) < 1 / 100 then
      (30, ["Amount match"])
    else (0, [])
  let c4 : Int × List String :=
    if truthyStr (edSatLender satData) && truthyStr (edMtgLender mtgData) &&
       (hasSubStr (jsToLower (optStr (edSatLender satData)))
          (firstTok (jsToLower (optStr (edMtgLender mtgData)))) ||
        hasSubStr (jsToLower (optStr (edMtgLender mtgData)))
          (firstTok (jsToLower (optStr (edSatLender satData))))) then
      (20, ["Lender name partial match"])
    else (0, [])
  let satGrantors := jsToLower (joinSpace sat.grantors)
  let mtgGrantors := jsToLower (joinSpace mtg.grantors)
  let c5 : Int × List String :=
    if satGrantors ≠ "" && mtgGrantors ≠ "" &&
       firstTok satGrantors == firstTok mtgGrantors then
      (10, ["Grantor name match"])
    else (0, [])
  (c1.1 + c2.1 + c3.1 + c4.1 + c5.1, c1.2 ++ c2.2 ++ c3.2 ++ c4.2 ++ c5.2)

/-- The full pair score: the signals plus method 6, the temporal adjustment
(`+5` when the satisfaction is recorded strictly after the mortgage, `−20`
otherwise). -/
def scorePair (sat mtg : Document) : Int × List String :=
  let s := scoreSignals sat mtg
  if mtg.recordTimestamp < sat.recordTimestamp then (s.1 + 5, s.2)
  else (s.1 - 20, s.2)

/-- Confidence tier of an accepted score. -/
def confOf (score : Int) : String :=
  if 90 ≤ score then "high" else if 50 ≤ score then "medium" else "low"

/-- The inner candidate loop over the unmatched-mortgage pool, carrying the
running best candidate (mortgage, index, reasons) and best score; an update
happens only on a strictly larger score. -/
def selectLoop (sat : Document) : List Document → Nat →
    Option (Document × Nat × List String) → Int →
    Option (Document × Nat × List String) × Int
  | [], _, best, bestScore => (best, bestScore)
  | mtg :: rest, i, best, bestScore =>
    let sc := scorePair sat mtg
    if bestScore < sc.1 then selectLoop sat rest (i + 1) (some (mtg, i, sc.2)) sc.1
    else selectLoop sat rest (i + 1) best bestScore

/-- One iteration of the outer loop over satisfactions: accept the best
candidate when one exists and its score reaches the floor of 30, splicing the
mortgage out of the pool and recording the satisfaction key. -/
def matchStep (st : MatchState) (sat : Document) : MatchState :=
  match selectLoop sat st.pool 0 none 0 with
  | (some (mtg, i, reasons), bestScore) =>
    if 30 ≤ bestScore then
      { matchList := st.matchList ++
          [{ satisfaction := sat, mortgage := mtg, score := bestScore,
             confidence := confOf bestScore, matchReasons := reasons }],
        pool := st.pool.eraseIdx i,
        usedKeys := st.usedKeys ++ [sat.instrumentNumber] }
    else st
  | (none, _) => st

/-- `matchSatisfactionsToMortgages`: the greedy discharge-by-discharge
assignment; unmatched satisfactions are recovered by filtering on the
`usedSatisfactions` key set (keyed by `instrumentNumber`). -/
def matchSatisfactionsToMortgages (mortgages satisfactions : List Document) :
    MatchResult :=
  let final := satisfactions.foldl matchStep
    { matchList := [], pool := mortgages, usedKeys := [] }
  { matchList := final.matchList
    unmatchedMortgages := final.pool
    unmatchedSatisfactions := satisfactions.filter
      (fun s => !(decide (s.instrumentNumber ∈ final.usedKeys))) }

/-! ## Sorting lemmas: stability of the modelled stable sort -/

theorem filter_orderedInsert_eq {α : Type} (r : α → α → Prop) [DecidableRel r]
    (p : α → Bool) (hcompat : ∀ a b, p a = true → p b = true → r a b)
    (a : α) (l : List α) :
    (l.orderedInsert r a).filter p =
      if p a then a :: l.filter p else l.filter p := by
  induction l with
  | nil =>
    by_cases hpa : p a = true <;>
      simp [List.orderedInsert, List.filter_cons, hpa]
  | cons b l ih =>
    by_cases hr : r a b
    · by_cases hpa : p a = true <;>
        simp [List.orderedInsert, if_pos hr, List.filter_cons, hpa]
    · have key : (b :: l).orderedInsert r a = b :: l.orderedInsert r a := by
        simp [List.orderedInsert, if_neg hr]
      rw [key]
      by_cases hpa : p a = true
      · have hpb : p b = false := by
          rcases Bool.eq_false_or_eq_true (p b) with h | h
          · exact absurd (hcompat a b hpa h) hr
          · exact h
        simp [List.filter_cons, hpb, ih, hpa]
      · have hpa2 : p a = false := by
          rcases Bool.eq_false_or_eq_true (p a) with h | h
          · exact absurd h hpa
          · exact h
        by_cases hpb : p b = true <;>
          simp [List.filter_cons, hpb, ih, hpa2]

theorem filter_insertionSort_eq {α : Type} (r : α → α → Prop) [DecidableRel r]
    (p : α → Bool) (hcompat : ∀ a b, p a = true → p b = true → r a b)
    (l : List α) :
    (l.insertionSort r).filter p = l.filter p := by
  induction l with
  | nil => rfl
  | cons a l ih =>
    simp only [List.insertionSort, List.filter]
    rw [filter_orderedInsert_eq r p hcompat, ih]
    by_cases hpa : p a = true <;> simp [hpa]

/-! ## Classifier lemmas -/

theorem getBucket_pushDoc (g : Groups) (d : Document) (b : BucketId) :
    getBucket (pushDoc g d) b =
      if bucketOf d.docTypeShort = b then getBucket g b ++ [d]
      else getBucket g b := by
  rcases hb : bucketOf d.docTypeShort <;> cases b <;>
    simp [pushDoc, getBucket, hb]

theorem getBucket_foldl (docs : List Document) (g : Groups) (b : BucketId) :
    getBucket (docs.foldl pushDoc g) b =
      getBucket g b ++
        docs.filter (fun d => decide (bucketOf d.docTypeShort = b)) := by
  induction docs generalizing g with
  | nil => simp
  | cons d t ih =>
    simp only [List.foldl_cons, List.filter]
    rw [ih, getBucket_pushDoc]
    by_cases hb : bucketOf d.docTypeShort = b <;> simp [hb]

theorem getBucket_sortGroups (g : Groups) (b : BucketId) :
    getBucket (sortGroups g) b = (getBucket g b).insertionSort tsDesc := by
  cases b <;> rfl

theorem getBucket_groupByDocType (docs : List Document) (b : BucketId) :
    getBucket (groupByDocType docs) b =
      (docs.filter
        (fun d => decide (bucketOf d.docTypeShort = b))).insertionSort tsDesc := by
  rw [groupByDocType, getBucket_sortGroups, groupRaw, getBucket_foldl]
  have he : getBucket {} b = [] := by cases b <;> rfl
  rw [he, List.nil_append]

theorem bucketFilters_sum (docs : List Document) :
    (↑(docs.filter (fun d => decide (bucketOf d.docTypeShort = BucketId.deeds))) +
     ↑(docs.filter (fun d => decide (bucketOf d.docTypeShort = BucketId.mortgages))) +
     ↑(docs.filter (fun d => decide (bucketOf d.docTypeShort = BucketId.satisfactions))) +
     ↑(docs.filter (fun d => decide (bucketOf d.docTypeShort = BucketId.liens))) +
     ↑(docs.filter (fun d => decide (bucketOf d.docTypeShort = BucketId.lisPendens))) +
     ↑(docs.filter (fun d => decide (bucketOf d.docTypeShort = BucketId.easements))) +
     ↑(docs.filter (fun d => decide (bucketOf d.docTypeShort = BucketId.restrictions))) +
     ↑(docs.filter (fun d => decide (bucketOf d.docTypeShort = BucketId.judgments))) +
     ↑(docs.filter (fun d => decide (bucketOf d.docTypeShort = BucketId.releases))) +
     ↑(docs.filter (fun d => decide (bucketOf d.docTypeShort = BucketId.assignments))) +
     ↑(docs.filter (fun d => decide (bucketOf d.docTypeShort = BucketId.modifications))) +
     ↑(docs.filter (fun d => decide (bucketOf d.docTypeShort = BucketId.other))) :
     Multiset Document) = ↑docs := by
  induction docs with
  | nil => simp
  | cons d t ih =>
    rcases hb : bucketOf d.docTypeShort <;>
      · simp only [List.filter_cons, hb]
        simp only [decide_eq_true_eq, reduceCtorEq, if_false, if_true,
          reduceIte]
        simp only [← Multiset.cons_coe, Multiset.cons_add, Multiset.add_cons]
        rw [ih]

/-- C5: classification is total and exhaustive — every document lands in the
single bucket selected by the fixed case-sensitive table on `docTypeShort`
(unknown codes land in `other`), each bucket holds exactly the documents the
table sends to it, and the multiset union of the twelve buckets equals the
input. -/
theorem groupByDocType_total_exhaustive (docs : List Document) :
    bucketsMultiset (groupByDocType docs) = ↑docs ∧
    ∀ b : BucketId,
      (getBucket (groupByDocType docs) b).Perm
        (docs.filter (fun d => decide (bucketOf d.docTypeShort = b))) := by
  have hperm : ∀ b : BucketId,
      (getBucket (groupByDocType docs) b).Perm
        (docs.filter (fun d => decide (bucketOf d.docTypeShort = b))) := by
    intro b
    rw [getBucket_groupByDocType]
    exact List.perm_insertionSort _ _
  refine ⟨?_, hperm⟩
  have e : ∀ b : BucketId,
      (↑(getBucket (groupByDocType docs) b) : Multiset Document) =
        ↑(docs.filter (fun d => decide (bucketOf d.docTypeShort = b))) :=
    fun b => Multiset.coe_eq_coe.mpr (hperm b)
  have e1 := e .deeds
  have e2 := e .mortgages
  have e3 := e .satisfactions
  have e4 := e .liens
  have e5 := e .lisPendens
  have e6 := e .easements
  have e7 := e .restrictions
  have e8 := e .judgments
  have e9 := e .releases
  have e10 := e .assignments
  have e11 := e .modifications
  have e12 := e .other
  simp only [getBucket] at e1 e2 e3 e4 e5 e6 e7 e8 e9 e10 e11 e12
  rw [bucketsMultiset, e1, e2, e3, e4, e5, e6, e7, e8, e9, e10, e11, e12]
  exact bucketFilters_sum docs

/-- C6: every bucket produced by `groupByDocType` is sorted descending by
`recordTimestamp`, and the sort is stable — for any timestamp, the documents
of the bucket carrying it appear in their original input order. -/
theorem groupByDocType_sorted_stable (docs : List Document) (b : BucketId) :
    (getBucket (groupByDocType docs) b).Sorted tsDesc ∧
    ∀ t : Int,
      (getBucket (groupByDocType docs) b).filter
          (fun d => decide (d.recordTimestamp = t)) =
        (docs.filter (fun d => decide (bucketOf d.docTypeShort = b))).filter
          (fun d => decide (d.recordTimestamp = t)) := by
  rw [getBucket_groupByDocType]
  constructor
  · exact List.sorted_insertionSort tsDesc _
  · intro t
    exact filter_insertionSort_eq tsDesc _
      (fun a c ha hc => by
        have ha2 : a.recordTimestamp = t := of_decide_eq_true ha
        have hc2 : c.recordTimestamp = t := of_decide_eq_true hc
        show c.recordTimestamp ≤ a.recordTimestamp
        rw [ha2, hc2]) _

/-! ## Chain-of-title lemmas -/

theorem numberFrom_length (n : Nat) (l : List Document) :
    (numberFrom n l).length = l.length := by
  induction l generalizing n with
  | nil => rfl
  | cons d t ih => simp [numberFrom, ih]

theorem numberFrom_map_sequence (n : Nat) (l : List Document) :
    (numberFrom n l).map ChainEntry.sequence = List.range' n l.length := by
  induction l generalizing n with
  | nil => rfl
  | cons d t ih =>
    simp only [numberFrom, List.map_cons, ih, List.length_cons]
    rfl

theorem numberFrom_map_instr (n : Nat) (l : List Document) :
    (numberFrom n l).map ChainEntry.instrumentNumber =
      l.map Document.instrumentNumber := by
  induction l generalizing n with
  | nil => rfl
  | cons d t ih => simp [numberFrom, ih]

/-- C4: `buildChainOfTitle` numbers the deeds `1..N` in ascending
`recordTimestamp` order.  The chain has one entry per deed, its sequence
numbers are exactly the range `1..N`, the entries follow the ascending stable
sort of the input (a permutation of the input, sorted by `tsAsc`, with
equal-timestamp deeds kept in input order), and an empty input yields an
empty chain. -/
theorem buildChainOfTitle_spec (deeds : List Document) :
    (buildChainOfTitle deeds).length = deeds.length ∧
    (buildChainOfTitle deeds).map ChainEntry.sequence =
      List.range' 1 deeds.length ∧
    (deeds.insertionSort tsAsc).Perm deeds ∧
    (deeds.insertionSort tsAsc).Sorted tsAsc ∧
    (∀ t : Int,
      (deeds.insertionSort tsAsc).filter
          (fun d => decide (d.recordTimestamp = t)) =
        deeds.filter (fun d => decide (d.recordTimestamp = t))) ∧
    (buildChainOfTitle deeds).map ChainEntry.instrumentNumber =
      (deeds.insertionSort tsAsc).map Document.instrumentNumber ∧
    buildChainOfTitle ([] : List Document) = [] := by
  have hsortlen : (deeds.insertionSort tsAsc).length = deeds.length :=
    (List.perm_insertionSort tsAsc deeds).length_eq
  have hchain : buildChainOfTitle deeds = numberFrom 1 (deeds.insertionSort tsAsc) := by
    rw [buildChainOfTitle]
    by_cases h : deeds.isEmpty
    · have : deeds = [] := List.isEmpty_iff.mp h
      subst this
      simp [numberFrom]
    · simp [h]
  refine ⟨?_, ?_, List.perm_insertionSort tsAsc deeds,
    List.sorted_insertionSort tsAsc deeds, ?_, ?_, rfl⟩
  · rw [hchain, numberFrom_length, hsortlen]
  · rw [hchain, numberFrom_map_sequence, hsortlen]
  · intro t
    exact filter_insertionSort_eq tsAsc _
      (fun a c ha hc => by
        have ha2 : a.recordTimestamp = t := of_decide_eq_true ha
        have hc2 : c.recordTimestamp = t := of_decide_eq_true hc
        show a.recordTimestamp ≤ c.recordTimestamp
        rw [ha2, hc2]) _
  · rw [hchain, numberFrom_map_instr]

/-- C3 (amended): `riskLevel` is `HIGH` exactly when a high-severity flag
exists; otherwise it is `MEDIUM` exactly when a medium-severity flag exists,
or an open lien exists, or more than one open mortgage exists — the last
disjunct applies in every mode, not only in scanned mode; otherwise `LOW`. -/
theorem generateSummary_riskLevel (documents : List Document)
    (chain : List ChainEntry) (analysis : MortgageAnalysis)
    (openLiens : List Document) (flags : List Flag) :
    ((generateSummary documents chain analysis openLiens flags).riskLevel =
        "HIGH" ↔
      0 < (flags.filter (fun f => f.severity == "high")).length) ∧
    ((generateSummary documents chain analysis openLiens flags).riskLevel =
        "MEDIUM" ↔
      ((flags.filter (fun f => f.severity == "high")).length = 0 ∧
       (0 < (flags.filter (fun f => f.severity == "medium")).length ∨
        0 < openLiens.length ∨ 1 < analysis.openMortgages.length))) ∧
    ((generateSummary documents chain analysis openLiens flags).riskLevel =
        "LOW" ↔
      ((flags.filter (fun f => f.severity == "high")).length = 0 ∧
       (flags.filter (fun f => f.severity == "medium")).length = 0 ∧
       openLiens.length = 0 ∧ analysis.openMortgages.length ≤ 1)) := by
  dsimp only [generateSummary]
  split_ifs with h1 h2
  · exact ⟨⟨fun _ => h1, fun _ => rfl⟩,
      ⟨fun he => absurd he (by decide),
       fun hc => absurd (hc.1 ▸ h1) (lt_irrefl 0)⟩,
      ⟨fun he => absurd he (by decide),
       fun hc => absurd (hc.1 ▸ h1) (lt_irrefl 0)⟩⟩
  · exact ⟨⟨fun he => absurd he (by decide), fun hp => absurd hp h1⟩,
      ⟨fun _ => ⟨by omega, h2⟩, fun _ => rfl⟩,
      ⟨fun he => absurd he (by decide), fun hc => absurd h2 (by omega)⟩⟩
  · exact ⟨⟨fun he => absurd he (by decide), fun hp => absurd hp h1⟩,
      ⟨fun he => absurd he (by decide), fun hc => absurd hc.2 h2⟩,
      ⟨fun _ => by omega, fun _ => rfl⟩⟩

/-- C3 counterexample: with no flags, no open liens and two open mortgages,
`generateSummary` reports `MEDIUM` in every mode, while the claim (riskLevel
as the spec words it, with the more-than-one-open-mortgage disjunct active
only in scanned mode) predicts `LOW` for a non-scanned run. -/
theorem generateSummary_scanned_counterexample :
    (generateSummary [] []
        { total := 2, satisfied := 0, openMortgages := [{}, {}] }
        [] []).riskLevel = "MEDIUM" ∧
    specRiskLevel false 0 0 0 2 = "LOW" ∧
    ("MEDIUM" : String) ≠ "LOW" := by
  refine ⟨rfl, rfl, by decide⟩

/-! ## Flag-engine lemmas -/

theorem filter_qf_of_ne (c : Prop) [Decidable c] (sev ty msg : String)
    (ds : List Document) (hty : (ty == "quick_flip") = false) :
    (if c then
        [{ severity := sev, type := ty, message := msg, documents := ds :
            Flag }]
      else []).filter (fun f => f.type == "quick_flip") = [] := by
  split_ifs <;> simp [List.filter, hty]

theorem qp_gap_iff (a : Int) : ((a : ℚ) / 86400 < 90) ↔ a < 7776000 := by
  rw [div_lt_iff₀ (by norm_num : (0 : ℚ) < 86400)]
  norm_cast

/-- C7: the `quick_flip` flag fires exactly when at least two deeds exist and
the two most recent deeds (the heads of the descending stable sort of the
deed filter) are strictly less than 90 days — 7,776,000 seconds — apart; a
gap of exactly 90 days does not fire.  When it fires, the single `quick_flip`
flag has severity `medium`, carries both deeds, and its message contains the
rounded day count. -/
theorem identifyFlags_quick_flip (docs : List Document) :
    ((identifyFlags docs).filter (fun f => f.type == "quick_flip") =
      (match (docs.filter (fun d => d.docTypeShort == some "D")).insertionSort
          tsDesc with
       | d0 :: d1 :: _ =>
         if ((d0.recordTimestamp - d1.recordTimestamp : Int) : ℚ) / 86400 <
             90 then
           [{ severity := "medium", type := "quick_flip",
              message := "Property sold twice within " ++
                toString (jsRound
                  (((d0.recordTimestamp - d1.recordTimestamp : Int) : ℚ) /
                    86400)) ++ " days",
              documents := [d0, d1] }]
         else []
       | _ => [])) ∧
    (((identifyFlags docs).filter (fun f => f.type == "quick_flip")) ≠ [] ↔
      (∃ d0 d1 rest,
        (docs.filter (fun d => d.docTypeShort == some "D")).insertionSort
            tsDesc = d0 :: d1 :: rest ∧
        d0.recordTimestamp - d1.recordTimestamp < 7776000)) ∧
    ((docs.filter (fun d => d.docTypeShort == some "D")).insertionSort
        tsDesc).Perm (docs.filter (fun d => d.docTypeShort == some "D")) ∧
    ((docs.filter (fun d => d.docTypeShort == some "D")).insertionSort
        tsDesc).Sorted tsDesc := by
  have heq : (identifyFlags docs).filter (fun f => f.type == "quick_flip") =
      (match (docs.filter (fun d => d.docTypeShort == some "D")).insertionSort
          tsDesc with
       | d0 :: d1 :: _ =>
         if ((d0.recordTimestamp - d1.recordTimestamp : Int) : ℚ) / 86400 <
             90 then
           [{ severity := "medium", type := "quick_flip",
              message := "Property sold twice within " ++
                toString (jsRound
                  (((d0.recordTimestamp - d1.recordTimestamp : Int) : ℚ) /
                    86400)) ++ " days",
              documents := [d0, d1] }]
         else []
       | _ => []) := by
    dsimp only [identifyFlags]
    rw [List.filter_append, List.filter_append, List.filter_append]
    rw [filter_qf_of_ne _ _ _ _ _ (by decide),
        filter_qf_of_ne _ _ _ _ _ (by decide),
        filter_qf_of_ne _ _ _ _ _ (by decide)]
    simp only [List.nil_append]
    rcases hsort : (docs.filter
        (fun d => d.docTypeShort == some "D")).insertionSort tsDesc with
      _ | ⟨d0, _ | ⟨d1, rest⟩⟩
    · rw [hsort]
      rfl
    · rw [hsort]
      rfl
    · rw [hsort]
      dsimp only
      split_ifs with hgap <;> simp [List.filter]
  refine ⟨heq, ?_, List.perm_insertionSort _ _, List.sorted_insertionSort _ _⟩
  rw [heq]
  rcases hsort : (docs.filter
      (fun d => d.docTypeShort == some "D")).insertionSort tsDesc with
    _ | ⟨d0, _ | ⟨d1, rest⟩⟩
  · rw [hsort]
    simp
  · rw [hsort]
    simp
  · rw [hsort]
    dsimp only
    split_ifs with hgap
    · simp only [ne_eq, List.cons_ne_nil, not_false_eq_true, true_iff]
      exact ⟨d0, d1, rest, rfl, (qp_gap_iff _).mp hgap⟩
    · simp only [ne_eq, not_true_eq_false, false_iff, not_exists]
      intro a b r hab
      obtain ⟨he, hlt⟩ := hab
      injection he with h0 hr2
      injection hr2 with h1 hr3
      subst h0
      subst h1
      exact hgap ((qp_gap_iff _).mpr hlt)

/-! ## Extractor short-text lemmas -/

theorem dropWhile_length_le (p : Char → Bool) (l : List Char) :
    (l.dropWhile p).length ≤ l.length := by
  induction l with
  | nil => simp
  | cons c t ih =>
    by_cases hc : p c = true <;> simp [List.dropWhile, hc]
    omega

theorem trimChars_length_le (l : List Char) :
    (trimChars l).length ≤ l.length := by
  unfold trimChars
  calc ((l.dropWhile jsWhitespace).reverse.dropWhile jsWhitespace).reverse.length
      = ((l.dropWhile jsWhitespace).reverse.dropWhile jsWhitespace).length := by
        simp
    _ ≤ (l.dropWhile jsWhitespace).reverse.length := dropWhile_length_le _ _
    _ = (l.dropWhile jsWhitespace).length := by simp
    _ ≤ l.length := dropWhile_length_le _ _

theorem jsTrim_length_le (s : String) : (jsTrim s).length ≤ s.length :=
  trimChars_length_le s.data

/-- C8: a text shorter than 50 characters short-circuits all three category
parsers to the all-null, boolean-flags-false, confidence-`low` record — no
pattern rule contributes. -/
theorem parse_short_text (text : String) (h : text.length < 50) :
    parseMortgageText text = ({} : MortgageData) ∧
    parseDeedText text = ({} : DeedData) ∧
    parseSatisfactionText text = ({} : SatisfactionData) ∧
    ({} : MortgageData) =
      { principalAmount := none, lenderName := none,
        instrumentReferences := [], isModification := false,
        isRefinance := false, maturityDate := none, interestRate := none,
        propertyAddress := none, confidence := "low" } ∧
    ({} : DeedData) =
      { consideration := none, legalDescription := none,
        propertyAddress := none, deedType := none, confidence := "low" } ∧
    ({} : SatisfactionData) =
      { satisfiedInstrumentNumber := none, satisfiedBookPage := none,
        originalLender := none, originalAmount := none,
        satisfiedDate := none, confidence := "low" } := by
  have hlt : (jsTrim text).length < 50 := lt_of_le_of_lt (jsTrim_length_le text) h
  have hg : shortText text = true := by
    simp [shortText, hlt]
  exact ⟨by simp [parseMortgageText, hg], by simp [parseDeedText, hg],
    by simp [parseSatisfactionText, hg], rfl, rfl, rfl⟩

/-- Witness for C8 at the concrete 9-character text `TOO SHORT`. -/
theorem parse_short_text_witness :
    ("TOO SHORT".length < 50) ∧
    (parseMortgageText "TOO SHORT" = ({} : MortgageData) ∧
     parseDeedText "TOO SHORT" = ({} : DeedData) ∧
     parseSatisfactionText "TOO SHORT" = ({} : SatisfactionData) ∧
     ({} : MortgageData) =
       { principalAmount := none, lenderName := none,
         instrumentReferences := [], isModification := false,
         isRefinance := false, maturityDate := none, interestRate := none,
         propertyAddress := none, confidence := "low" } ∧
     ({} : DeedData) =
       { consideration := none, legalDescription := none,
         propertyAddress := none, deedType := none, confidence := "low" } ∧
     ({} : SatisfactionData) =
       { satisfiedInstrumentNumber := none, satisfiedBookPage := none,
         originalLender := none, originalAmount := none,
         satisfiedDate := none, confidence := "low" }) :=
  ⟨by decide, parse_short_text "TOO SHORT" (by decide)⟩

/-! ## Normalizer lemmas: the parenthetical-code regex -/

theorem firstClose_sound (l g : List Char) (h : firstClose l = some g) :
    ∃ b, l = g ++ ')' :: b ∧ ')' ∉ g := by
  induction l generalizing g with
  | nil => exact absurd h (by simp [firstClose])
  | cons c rest ih =>
    by_cases hc : c = ')'
    · subst hc
      simp [firstClose] at h
      subst h
      exact ⟨rest, rfl, by simp⟩
    · simp [firstClose, hc] at h
      rcases h with ⟨g2, hg2, hgg⟩
      obtain ⟨b, hb, hnb⟩ := ih g2 hg2
      subst hgg
      refine ⟨b, by simp [hb], ?_⟩
      simp only [List.mem_cons, not_or]
      exact ⟨fun hcc => hc hcc.symm, hnb⟩

theorem firstClose_none (l : List Char) (h : firstClose l = none) :
    ')' ∉ l := by
  induction l with
  | nil => simp
  | cons c rest ih =>
    by_cases hc : c = ')'
    · subst hc
      simp [firstClose] at h
    · simp [firstClose, hc] at h
      simp only [List.mem_cons, not_or]
      exact ⟨fun hcc => hc hcc.symm, ih h⟩

theorem firstClose_of (g b : List Char) (hg : ')' ∉ g) :
    firstClose (g ++ ')' :: b) = some g := by
  induction g with
  | nil => simp [firstClose]
  | cons x g2 ih =>
    have hx : x ≠ ')' := fun hx => hg (by simp [hx])
    have hg2 : ')' ∉ g2 := fun hm => hg (by simp [hm])
    simp [firstClose, hx, ih hg2]

theorem extractParen_open_step (rest : List Char) :
    extractParen ('(' :: rest) =
      (match firstClose rest with
       | some grp => if grp.isEmpty then extractParen rest else some grp
       | none => extractParen rest) := by
  simp [extractParen]

theorem extractParen_skip_step (c : Char) (rest : List Char) (hc : c ≠ '(') :
    extractParen (c :: rest) = extractParen rest := by
  simp [extractParen, hc]

theorem extractParen_sound (l g : List Char) (h : extractParen l = some g) :
    ∃ a b, l = a ++ '(' :: (g ++ ')' :: b) ∧ g ≠ [] ∧ ')' ∉ g := by
  induction l generalizing g with
  | nil => exact absurd h (by simp [extractParen])
  | cons c rest ih =>
    by_cases hc : c = '('
    · subst hc
      rw [extractParen_open_step] at h
      rcases hfc : firstClose rest with _ | grp
      · rw [hfc] at h
        obtain ⟨a, b, hab, hne, hnb⟩ := ih g h
        exact ⟨'(' :: a, b, by simp [hab], hne, hnb⟩
      · rw [hfc] at h
        dsimp only at h
        by_cases hge : grp.isEmpty
        · rw [if_pos hge] at h
          obtain ⟨a, b, hab, hne, hnb⟩ := ih g h
          exact ⟨'(' :: a, b, by simp [hab], hne, hnb⟩
        · rw [if_neg hge] at h
          injection h with h
          obtain ⟨b, hb, hnb⟩ := firstClose_sound rest grp hfc
          subst h
          refine ⟨[], b, by simp [hb], ?_, hnb⟩
          intro hgnil
          exact hge (by simp [hgnil])
    · rw [extractParen_skip_step c rest hc] at h
      obtain ⟨a, b, hab, hne, hnb⟩ := ih g h
      exact ⟨c :: a, b, by simp [hab], hne, hnb⟩

theorem extractParen_complete (l : List Char) (h : extractParen l = none)
    (a g b : List Char) (heq : l = a ++ '(' :: (g ++ ')' :: b)) :
    g = [] ∨ ')' ∈ g := by
  induction l generalizing a g b with
  | nil => exact absurd heq (by simp)
  | cons c rest ih =>
    by_cases hc : c = '('
    · subst hc
      rw [extractParen_open_step] at h
      rcases hfc : firstClose rest with _ | grp
      · have hnc := firstClose_none rest hfc
        exfalso
        apply hnc
        rcases a with _ | ⟨c2, a2⟩
        · simp only [List.nil_append, List.cons.injEq] at heq
          simp [heq.2]
        · simp only [List.cons_append, List.cons.injEq] at heq
          simp [heq.2]
      · rw [hfc] at h
        dsimp only at h
        by_cases hge : grp.isEmpty
        · rw [if_pos hge] at h
          rcases a with _ | ⟨c2, a2⟩
          · simp only [List.nil_append, List.cons.injEq] at heq
            by_contra hcon
            push_neg at hcon
            obtain ⟨hg1, hg2⟩ := hcon
            have hfg : firstClose rest = some g := by
              rw [heq.2]
              exact firstClose_of g b hg2
            rw [hfc] at hfg
            injection hfg with hfg
            subst hfg
            exact hg1 (by simpa using hge)
          · simp only [List.cons_append, List.cons.injEq] at heq
            exact ih h a2 g b heq.2
        · rw [if_neg hge] at h
          exact absurd h (by simp)
    · rw [extractParen_skip_step c rest hc] at h
      rcases a with _ | ⟨c2, a2⟩
      · simp only [List.nil_append, List.cons.injEq] at heq
        exact absurd heq.1 hc
      · simp only [List.cons_append, List.cons.injEq] at heq
        exact ih h a2 g b heq.2

/-- C9: `parseRecord` is total — it never raises — and represents absence:
missing party-name lists become empty sequences, missing numeric and
identifier fields pass through as `none` (the null-like value), and
`docTypeShort` is the capture of the first parenthesized non-empty substring
of `docType` (characterised exactly by `extractParen`), falling back to the
whole `docType` string when no such parenthetical exists. -/
theorem parseRecord_defaults (record : RawRecord) :
    (record.PartiesOne = none → (parseRecord record).grantors = []) ∧
    (record.PartiesTwo = none → (parseRecord record).grantees = []) ∧
    (∀ l, record.PartiesOne = some l → (parseRecord record).grantors = l) ∧
    (parseRecord record).salesPrice = record.SalesPrice ∧
    (parseRecord record).pageCount = record.PageCount ∧
    (parseRecord record).recordTimestamp = record.RecordDate ∧
    (parseRecord record).instrumentNumber = record.Instrument ∧
    (parseRecord record).bookNum = record.BookNum ∧
    (parseRecord record).pageNum = record.PageNum ∧
    (parseRecord record).docType = record.DocType ∧
    (record.DocType = none → (parseRecord record).docTypeShort = none) ∧
    (∀ s, record.DocType = some s →
      (parseRecord record).docTypeShort = some (extractShort s)) ∧
    (∀ s g, extractParen s = some g →
      extractShort (String.mk s) = String.mk g ∧
      ∃ a b, s = a ++ '(' :: (g ++ ')' :: b) ∧ g ≠ [] ∧ ')' ∉ g) ∧
    (∀ s, extractParen s = none →
      extractShort (String.mk s) = String.mk s ∧
      ∀ a g b, s = a ++ '(' :: (g ++ ')' :: b) → g = [] ∨ ')' ∈ g) := by
  refine ⟨fun h => by simp [parseRecord, h], fun h => by simp [parseRecord, h],
    fun l h => by simp [parseRecord, h], rfl, rfl, rfl, rfl, rfl, rfl, rfl,
    fun h => by simp [parseRecord, h],
    fun s h => by simp [parseRecord, h], ?_, ?_⟩
  · intro s g h
    exact ⟨by simp [extractShort, h], extractParen_sound s g h⟩
  · intro s h
    exact ⟨by simp [extractShort, h], extractParen_complete s h⟩

/-- Witness for C9 at a concrete raw record whose `DocType` is
`(D) DEED` and whose party lists and numeric fields are absent. -/
theorem parseRecord_defaults_witness :
    (parseRecord { DocType := some "(D) DEED", RecordDate := 5 }).grantors =
      [] ∧
    (parseRecord { DocType := some "(D) DEED", RecordDate := 5 }).salesPrice =
      none ∧
    (parseRecord { DocType := some "(D) DEED", RecordDate := 5 }).docTypeShort
      = some "D" := by
  obtain ⟨h1, _, _, h4, _, _, _, _, _, _, _, h12, _, _⟩ :=
    parseRecord_defaults { DocType := some "(D) DEED", RecordDate := 5 }
  refine ⟨h1 rfl, by rw [h4], by rw [h12 "(D) DEED" rfl]; rfl⟩

/-- C10: `TAXDEED` tax deeds are in the default title-search document-type
set, their short code is absent from the classifier table (they land in
`other`), their full label contains `TAX`, and any input containing a
document whose `docType` contains `TAX` makes the flag engine emit a
high-severity `tax_lien` flag, which forces the summary risk level to
`HIGH` whatever the rest of the analysis says. -/
theorem taxdeed_forces_high :
    ("(TAXDEED) TAX DEED" ∈ TITLE_DOC_TYPES) ∧
    extractShort "(TAXDEED) TAX DEED" = "TAXDEED" ∧
    bucketOf (some "TAXDEED") = BucketId.other ∧
    optContainsTAX (some "(TAXDEED) TAX DEED") = true ∧
    ∀ docs : List Document,
      (∃ d ∈ docs, optContainsTAX d.docType = true) →
      (∃ f ∈ identifyFlags docs, f.severity = "high" ∧ f.type = "tax_lien") ∧
      ∀ (chain : List ChainEntry) (analysis : MortgageAnalysis)
        (liens : List Document),
        (generateSummary docs chain analysis liens
          (identifyFlags docs)).riskLevel = "HIGH" := by
  refine ⟨by decide, by decide, rfl, by decide, ?_⟩
  intro docs hex
  obtain ⟨d, hd, htax⟩ := hex
  have hdf : d ∈ docs.filter
      (fun d => d.docTypeShort == some "LNCORPTX" || optContainsTAX d.docType) :=
    List.mem_filter.mpr ⟨hd, by simp [htax]⟩
  have htl : 0 < (docs.filter
      (fun d => d.docTypeShort == some "LNCORPTX" ||
        optContainsTAX d.docType)).length :=
    List.length_pos.mpr (List.ne_nil_of_mem hdf)
  have hf : ∃ f ∈ identifyFlags docs,
      f.severity = "high" ∧ f.type = "tax_lien" := by
    dsimp only [identifyFlags]
    rw [if_pos htl]
    refine ⟨_, List.mem_append.mpr (Or.inl (List.mem_append.mpr (Or.inr
      (List.mem_singleton.mpr rfl)))), ?_, ?_⟩
    · rfl
    · rfl
  obtain ⟨fl, hmem, hsev, hty⟩ := hf
  have hhigh : 0 < ((identifyFlags docs).filter
      (fun f => f.severity == "high")).length :=
    List.length_pos.mpr (List.ne_nil_of_mem
      (List.mem_filter.mpr ⟨hmem, by simp [hsev]⟩))
  refine ⟨⟨fl, hmem, hsev, hty⟩, ?_⟩
  intro chain analysis liens
  dsimp only [generateSummary]
  rw [if_pos hhigh]

/-- Witness for C10 at a one-document input holding a single tax deed. -/
theorem taxdeed_forces_high_witness :
    (∃ d ∈ [({ docType := some "(TAXDEED) TAX DEED" } : Document)],
      optContainsTAX d.docType = true) ∧
    (∃ f ∈ identifyFlags [({ docType := some "(TAXDEED) TAX DEED" } :
        Document)], f.severity = "high" ∧ f.type = "tax_lien") ∧
    (generateSummary [({ docType := some "(TAXDEED) TAX DEED" } : Document)]
        [] { total := 0, satisfied := 0, openMortgages := [] } []
        (identifyFlags [({ docType := some "(TAXDEED) TAX DEED" } :
          Document)])).riskLevel = "HIGH" := by
  have h := taxdeed_forces_high.2.2.2.2
    [({ docType := some "(TAXDEED) TAX DEED" } : Document)] (by decide)
  exact ⟨by decide, h.1,
    h.2 [] { total := 0, satisfied := 0, openMortgages := [] } []⟩

/-! ## Matcher lemmas -/

theorem selectLoop_best (sat : Document) (l : List Document) (k : Nat)
    (best : Option (Document × Nat × List String)) (bs : Int) :
    (selectLoop sat l k best bs).1 = best ∨
    ∃ j m r, (selectLoop sat l k best bs).1 = some (m, k + j, r) ∧
      l[j]? = some m := by
  induction l generalizing k best bs with
  | nil => exact Or.inl rfl
  | cons mtg rest ih =>
    rw [selectLoop]
    by_cases hup : bs < (scorePair sat mtg).1
    · rw [if_pos hup]
      rcases ih (k + 1) (some (mtg, k, (scorePair sat mtg).2))
          (scorePair sat mtg).1 with h | ⟨j, m, r, h, hg⟩
      · refine Or.inr ⟨0, mtg, (scorePair sat mtg).2, ?_, by simp⟩
        rw [h]
        simp
      · refine Or.inr ⟨j + 1, m, r, ?_, by simpa using hg⟩
        have heq : k + 1 + j = k + (j + 1) := by omega
        rw [heq] at h
        exact h
    · rw [if_neg hup]
      rcases ih (k + 1) best bs with h | ⟨j, m, r, h, hg⟩
      · exact Or.inl h
      · refine Or.inr ⟨j + 1, m, r, ?_, by simpa using hg⟩
        have heq : k + 1 + j = k + (j + 1) := by omega
        rw [heq] at h
        exact h

theorem cons_eraseIdx_coe (l : List Document) (i : Nat) (x : Document)
    (h : l[i]? = some x) :
    x ::ₘ (↑(l.eraseIdx i) : Multiset Document) = ↑l := by
  induction l generalizing i with
  | nil => simp at h
  | cons a t ih =>
    rcases i with _ | i
    · simp only [List.getElem?_cons_zero, Option.some.injEq] at h
      subst h
      simp [List.eraseIdx]
    · simp only [List.getElem?_cons_succ] at h
      have := ih i h
      calc x ::ₘ (↑((a :: t).eraseIdx (i + 1)) : Multiset Document)
          = x ::ₘ a ::ₘ ↑(t.eraseIdx i) := by simp [List.eraseIdx]
        _ = a ::ₘ x ::ₘ ↑(t.eraseIdx i) := Multiset.cons_swap x a _
        _ = a ::ₘ (↑t : Multiset Document) := by rw [this]
        _ = ↑(a :: t) := by simp

theorem matchStep_cases (st : MatchState) (sat : Document) :
    matchStep st sat = st ∨
    ∃ mtg i reasons s, st.pool[i]? = some mtg ∧ (30 : Int) ≤ s ∧
      matchStep st sat =
        { matchList := st.matchList ++
            [{ satisfaction := sat, mortgage := mtg, score := s,
               confidence := confOf s, matchReasons := reasons }],
          pool := st.pool.eraseIdx i,
          usedKeys := st.usedKeys ++ [sat.instrumentNumber] } := by
  rcases hsel : selectLoop sat st.pool 0 none 0 with ⟨best, bs⟩
  rcases best with _ | ⟨mtg, i, reasons⟩
  · left
    rw [matchStep, hsel]
  · by_cases h30 : (30 : Int) ≤ bs
    · right
      have hget : st.pool[i]? = some mtg := by
        rcases selectLoop_best sat st.pool 0 none 0 with h | ⟨j, m, r, h, hg⟩
        · rw [hsel] at h
          simp at h
        · rw [hsel] at h
          simp only [Option.some.injEq, Prod.mk.injEq] at h
          obtain ⟨hm, hij, hr⟩ := h
          subst hm
          have : j = i := by omega
          subst this
          exact hg
      refine ⟨mtg, i, reasons, bs, hget, h30, ?_⟩
      rw [matchStep, hsel]
      dsimp only
      rw [if_pos h30]
    · left
      rw [matchStep, hsel]
      dsimp only
      rw [if_neg h30]

theorem matcher_run (sats : List Document) (st : MatchState) :
    ∃ added : List MatchEntry,
      (sats.foldl matchStep st).matchList = st.matchList ++ added ∧
      (sats.foldl matchStep st).usedKeys =
        st.usedKeys ++ added.map (fun e => e.satisfaction.instrumentNumber) ∧
      (added.map (fun e => e.satisfaction)).Sublist sats ∧
      ((↑(added.map (fun e => e.mortgage)) : Multiset Document) +
        ↑(sats.foldl matchStep st).pool) = ↑st.pool := by
  induction sats generalizing st with
  | nil => exact ⟨[], by simp, by simp, by simp, by simp⟩
  | cons sat rest ih =>
    simp only [List.foldl_cons]
    rcases matchStep_cases st sat with hcase |
      ⟨mtg, i, reasons, s, hget, h30, hcase⟩
    · obtain ⟨added, h1, h2, h3, h4⟩ := ih st
      rw [hcase]
      exact ⟨added, h1, h2, h3.cons sat, h4⟩
    · obtain ⟨added, h1, h2, h3, h4⟩ := ih (matchStep st sat)
      rw [hcase] at h1 h2 h4 ⊢
      refine ⟨({ satisfaction := sat, mortgage := mtg, score := s,
                 confidence := confOf s,
                 matchReasons := reasons } : MatchEntry) :: added,
        ?_, ?_, ?_, ?_⟩
      · rw [h1]
        simp
      · rw [h2]
        simp
      · exact h3.cons₂ sat
      · simp only [List.map_cons, ← Multiset.cons_coe, Multiset.cons_add]
        rw [h4]
        exact cons_eraseIdx_coe st.pool i mtg hget

theorem sublist_key_filter (key : Document → Option String)
    (d l : List Document) (hsub : d.Sublist l) :
    (l.map key).Nodup →
    ((↑d : Multiset Document) +
      ↑(l.filter (fun s => !(decide (key s ∈ d.map key))))) = ↑l := by
  induction hsub with
  | slnil => intro _; simp
  | @cons l₁ l₂ a hsub2 ih =>
    intro hnd
    simp only [List.map_cons, List.nodup_cons] at hnd
    obtain ⟨hkan, hnd2⟩ := hnd
    have hka : key a ∉ l₁.map key := fun hmem =>
      hkan ((hsub2.map key).subset hmem)
    have hpa : (!(decide (key a ∈ l₁.map key))) = true := by
      simp [hka]
    rw [List.filter_cons, if_pos hpa, ← Multiset.cons_coe, Multiset.add_cons,
      ih hnd2, Multiset.cons_coe]
  | @cons₂ l₁ l₂ a hsub2 ih =>
    intro hnd
    simp only [List.map_cons, List.nodup_cons] at hnd
    obtain ⟨hkan, hnd2⟩ := hnd
    have hpa : (!(decide (key a ∈ (a :: l₁).map key))) = false := by
      simp
    have hcongr : l₂.filter (fun s => !(decide (key s ∈ (a :: l₁).map key))) =
        l₂.filter (fun s => !(decide (key s ∈ l₁.map key))) := by
      apply List.filter_congr
      intro s hs
      have hne : key s ≠ key a := fun he =>
        hkan (he ▸ List.mem_map_of_mem key hs)
      simp [hne]
    rw [List.filter_cons, if_neg (by simp [hpa]), hcongr,
      ← Multiset.cons_coe, Multiset.cons_add, ih hnd2, Multiset.cons_coe]

/-- C2 (amended): provided no two satisfactions share an `instrumentNumber`
value, the matcher partitions both inputs — every mortgage occurrence appears
exactly once across the match list and the unmatched-mortgage list (this half
needs no proviso), every satisfaction occurrence appears exactly once across
the match list and the unmatched-satisfaction list, and no satisfaction
appears in two matches. -/
theorem matcher_partitions (mortgages satisfactions : List Document)
    (hnd : (satisfactions.map (fun s => s.instrumentNumber)).Nodup) :
    ((↑((matchSatisfactionsToMortgages mortgages satisfactions).matchList.map
        (fun e => e.mortgage)) : Multiset Document) +
      ↑(matchSatisfactionsToMortgages mortgages
          satisfactions).unmatchedMortgages = ↑mortgages) ∧
    ((↑((matchSatisfactionsToMortgages mortgages satisfactions).matchList.map
        (fun e => e.satisfaction)) : Multiset Document) +
      ↑(matchSatisfactionsToMortgages mortgages
          satisfactions).unmatchedSatisfactions = ↑satisfactions) ∧
    ((matchSatisfactionsToMortgages mortgages satisfactions).matchList.map
      (fun e => e.satisfaction)).Nodup := by
  obtain ⟨added, h1, h2, h3, h4⟩ :=
    matcher_run satisfactions ⟨[], mortgages, []⟩
  simp only [List.nil_append] at h1 h2
  have hm : (matchSatisfactionsToMortgages mortgages
      satisfactions).matchList = added := by
    simp [matchSatisfactionsToMortgages, h1]
  have hp : (matchSatisfactionsToMortgages mortgages
      satisfactions).unmatchedMortgages =
      (satisfactions.foldl matchStep ⟨[], mortgages, []⟩).pool := by
    simp [matchSatisfactionsToMortgages]
  have hs : (matchSatisfactionsToMortgages mortgages
      satisfactions).unmatchedSatisfactions =
      satisfactions.filter (fun s => !(decide (s.instrumentNumber ∈
        (added.map (fun e => e.satisfaction)).map
          (fun s => s.instrumentNumber)))) := by
    simp only [matchSatisfactionsToMortgages, h2, List.map_map]
    rfl
  have hndsats : satisfactions.Nodup := List.Nodup.of_map _ hnd
  refine ⟨?_, ?_, ?_⟩
  · rw [hm, hp]
    exact h4
  · rw [hm, hs]
    exact sublist_key_filter (fun s => s.instrumentNumber)
      (added.map (fun e => e.satisfaction)) satisfactions h3 hnd
  · rw [hm]
    exact hndsats.sublist h3

/-- Witness for C2: one mortgage and one satisfaction whose extracted data
carries the matching instrument number. -/
theorem matcher_partitions_witness :
    (([({ instrumentNumber := some "300", recordTimestamp := 9,
          extractedData := some (.satisfaction
            { satisfiedInstrumentNumber := some "777" }) } : Document)].map
        (fun s => s.instrumentNumber)).Nodup) ∧
    ((↑((matchSatisfactionsToMortgages
          [({ instrumentNumber := some "777" } : Document)]
          [({ instrumentNumber := some "300", recordTimestamp := 9,
              extractedData := some (.satisfaction
                { satisfiedInstrumentNumber := some "777" }) } :
            Document)]).matchList.map
        (fun e => e.mortgage)) : Multiset Document) +
      ↑(matchSatisfactionsToMortgages
          [({ instrumentNumber := some "777" } : Document)]
          [({ instrumentNumber := some "300", recordTimestamp := 9,
              extractedData := some (.satisfaction
                { satisfiedInstrumentNumber := some "777" }) } :
            Document)]).unmatchedMortgages =
        ↑[({ instrumentNumber := some "777" } : Document)]) := by
  have h := matcher_partitions
    [({ instrumentNumber := some "777" } : Document)]
    [({ instrumentNumber := some "300", recordTimestamp := 9,
        extractedData := some (.satisfaction
          { satisfiedInstrumentNumber := some "777" }) } : Document)]
    (by decide)
  exact ⟨by decide, h.1⟩

/-- C2 counterexample: two distinct satisfactions sharing an
`instrumentNumber`.  The first is matched (lender signal 20 plus grantor
signal 10 plus temporal 5), so its key enters the used-key set; the second
finds no mortgage left, yet the key-based filter also drops it from
`unmatchedSatisfactions` — it appears zero times in the output, refuting the
unconditional partition claim. -/
theorem matcher_partition_counterexample :
    let M : Document := { instrumentNumber := some "111",
                          grantors := ["ALICE JONES"],
                          recordTimestamp := 0,
                          extractedData := some (.mortgage
                            { lenderName := some "WELLS FARGO BANK" }) }
    let S1 : Document := { instrumentNumber := some "900",
                           grantors := ["ALICE SMITH"],
                           recordTimestamp := 100,
                           extractedData := some (.satisfaction
                             { originalLender := some "WELLS FARGO" }) }
    let S2 : Document := { instrumentNumber := some "900",
                           recordTimestamp := 200 }
    S1 ≠ S2 ∧
    ([S1, S2].count S2 = 1) ∧
    (((matchSatisfactionsToMortgages [M] [S1, S2]).matchList.map
        (fun e => e.satisfaction)) ++
      (matchSatisfactionsToMortgages [M] [S1, S2]).unmatchedSatisfactions).count
        S2 = 0 := by
  refine ⟨by decide, by decide, by decide⟩

theorem scorePair_le_of_no_instr (sat m2 : Document) (n : String)
    (hn : edSatInstr sat.extractedData = some n)
    (hne : m2.instrumentNumber ≠ some n)
    (hbp : edSatBookPage sat.extractedData = none) :
    (scorePair sat m2).1 ≤ 65 := by
  have hb : (edSatInstr sat.extractedData == m2.instrumentNumber) = false := by
    rw [hn]
    exact beq_eq_false_iff_ne.mpr (fun h => hne h.symm)
  simp only [scorePair, scoreSignals, hb, hbp, truthyStr, Bool.and_false,
    Bool.false_and, Bool.and_self, if_false, Bool.false_eq_true]
  split_ifs <;> simp

theorem scorePair_ge_of_instr (sat m : Document) (n : String)
    (hn : edSatInstr sat.extractedData = some n) (hne : n ≠ "")
    (hmn : m.instrumentNumber = some n) :
    100 ≤ (scoreSignals sat m).1 ∧ 80 ≤ (scorePair sat m).1 := by
  have hb : (edSatInstr sat.extractedData == m.instrumentNumber) = true := by
    rw [hn, hmn]
    exact beq_self_eq_true _
  have ht : truthyStr (edSatInstr sat.extractedData) = true := by
    rw [hn]
    simp [truthyStr, hne]
  have ht2 : truthyStr m.instrumentNumber = true := by
    rw [hmn]
    simp [truthyStr, hne]
  simp only [scorePair, scoreSignals, hb, ht, ht2, Bool.and_self,
    Bool.true_and, Bool.and_true, if_true]
  split_ifs <;> simp

theorem selectLoop_stays (sat m : Document) (l : List Document) (k i : Nat)
    (r : List String)
    (hall : ∀ x ∈ l, (scorePair sat x).1 ≤ (scorePair sat m).1) :
    selectLoop sat l k (some (m, i, r)) (scorePair sat m).1 =
      (some (m, i, r), (scorePair sat m).1) := by
  induction l generalizing k with
  | nil => rfl
  | cons x rest ih =>
    rw [selectLoop, if_neg (not_lt.mpr (hall x (List.mem_cons_self x rest)))]
    exact ih (k + 1) (fun y hy => hall y (List.mem_cons_of_mem x hy))

theorem selectLoop_finds (sat m : Document) (l : List Document) (k : Nat)
    (best : Option (Document × Nat × List String)) (bs : Int)
    (hbs : bs ≤ 65) (hmem : m ∈ l) (hm : 80 ≤ (scorePair sat m).1)
    (hall : ∀ x ∈ l, x = m ∨ (scorePair sat x).1 ≤ 65) :
    ∃ i, selectLoop sat l k best bs =
      (some (m, i, (scorePair sat m).2), (scorePair sat m).1) := by
  induction l generalizing k best bs with
  | nil => exact absurd hmem (List.not_mem_nil m)
  | cons x rest ih =>
    have hall2 : ∀ y ∈ rest, y = m ∨ (scorePair sat y).1 ≤ 65 :=
      fun y hy => hall y (List.mem_cons_of_mem x hy)
    by_cases hx : x = m
    · subst hx
      rw [selectLoop, if_pos (lt_of_le_of_lt hbs (by omega))]
      refine ⟨k, ?_⟩
      exact selectLoop_stays sat x rest (k + 1) k (scorePair sat x).2
        (fun y hy => by
          rcases hall2 y hy with he | hle
          · rw [he]
          · omega)
    · have hxle : (scorePair sat x).1 ≤ 65 := by
        rcases hall x (List.mem_cons_self x rest) with he | hle
        · exact absurd he hx
        · exact hle
      have hmem2 : m ∈ rest := by
        rcases List.mem_cons.mp hmem with he | h2
        · exact absurd he.symm hx
        · exact h2
      rw [selectLoop]
      by_cases hup : bs < (scorePair sat x).1
      · rw [if_pos hup]
        exact ih (k + 1) (some (x, k, (scorePair sat x).2))
          (scorePair sat x).1 hxle hmem2 hall2
      · rw [if_neg hup]
        exact ih (k + 1) best bs hbs hmem2 hall2

/-- C1 (amended): when a satisfaction is processed whose extracted
`satisfiedInstrumentNumber` is a non-empty string equal to the instrument
number of a mortgage still in the pool, and neither a book/page reference
(the extractor sets at most one of the two) nor a second pooled mortgage
with the same instrument number is present, then that pair scores at least
100 before the temporal adjustment and at least 80 after it, and the matcher
accepts exactly that mortgage for that satisfaction regardless of date
ordering.  (As stated, without the still-in-the-pool proviso, the claim
fails: see the counterexample.) -/
theorem instrument_match_wins (sat m : Document) (st : MatchState)
    (n : String)
    (hn : edSatInstr sat.extractedData = some n) (hne : n ≠ "")
    (hbp : edSatBookPage sat.extractedData = none)
    (hmem : m ∈ st.pool) (hmn : m.instrumentNumber = some n)
    (huniq : ∀ x ∈ st.pool, x.instrumentNumber = some n → x = m) :
    100 ≤ (scoreSignals sat m).1 ∧ 80 ≤ (scorePair sat m).1 ∧
    ∃ i, matchStep st sat =
      { matchList := st.matchList ++
          [{ satisfaction := sat, mortgage := m,
             score := (scorePair sat m).1,
             confidence := confOf (scorePair sat m).1,
             matchReasons := (scorePair sat m).2 }],
        pool := st.pool.eraseIdx i,
        usedKeys := st.usedKeys ++ [sat.instrumentNumber] } := by
  obtain ⟨h100, h80⟩ := scorePair_ge_of_instr sat m n hn hne hmn
  have hall : ∀ x ∈ st.pool, x = m ∨ (scorePair sat x).1 ≤ 65 := by
    intro x hx
    by_cases hxi : x.instrumentNumber = some n
    · exact Or.inl (huniq x hx hxi)
    · exact Or.inr (scorePair_le_of_no_instr sat x n hn hxi hbp)
  obtain ⟨i, hsel⟩ := selectLoop_finds sat m st.pool 0 none 0 (by norm_num)
    hmem h80 hall
  refine ⟨h100, h80, i, ?_⟩
  rw [matchStep, hsel]
  dsimp only
  rw [if_pos (by omega : (30 : Int) ≤ (scorePair sat m).1)]

/-- Witness for C1: one satisfaction recorded BEFORE the mortgage it
discharges (so the −20 temporal penalty applies) still wins on instrument
equality. -/
theorem instrument_match_wins_witness :
    (edSatInstr (some (.satisfaction
        { satisfiedInstrumentNumber := some "777" })) = some "777") ∧
    ∃ i, matchStep
        { matchList := [],
          pool := [({ instrumentNumber := some "777",
                      recordTimestamp := 99 } : Document)],
          usedKeys := [] }
        { instrumentNumber := some "500", recordTimestamp := 10,
          extractedData := some (.satisfaction
            { satisfiedInstrumentNumber := some "777" }) } =
      { matchList :=
          [{ satisfaction :=
               { instrumentNumber := some "500", recordTimestamp := 10,
                 extractedData := some (.satisfaction
                   { satisfiedInstrumentNumber := some "777" }) },
             mortgage := { instrumentNumber := some "777",
                           recordTimestamp := 99 },
             score := (scorePair
               { instrumentNumber := some "500", recordTimestamp := 10,
                 extractedData := some (.satisfaction
                   { satisfiedInstrumentNumber := some "777" }) }
               { instrumentNumber := some "777", recordTimestamp := 99 }).1,
             confidence := confOf (scorePair
               { instrumentNumber := some "500", recordTimestamp := 10,
                 extractedData := some (.satisfaction
                   { satisfiedInstrumentNumber := some "777" }) }
               { instrumentNumber := some "777", recordTimestamp := 99 }).1,
             matchReasons := (scorePair
               { instrumentNumber := some "500", recordTimestamp := 10,
                 extractedData := some (.satisfaction
                   { satisfiedInstrumentNumber := some "777" }) }
               { instrumentNumber := some "777", recordTimestamp := 99 }).2 }],
        pool := [({ instrumentNumber := some "777",
                    recordTimestamp := 99 } : Document)].eraseIdx i,
        usedKeys := [some "500"] } := by
  have h := instrument_match_wins
    { instrumentNumber := some "500", recordTimestamp := 10,
      extractedData := some (.satisfaction
        { satisfiedInstrumentNumber := some "777" }) }
    { instrumentNumber := some "777", recordTimestamp := 99 }
    { matchList := [],
      pool := [({ instrumentNumber := some "777",
                  recordTimestamp := 99 } : Document)],
      usedKeys := [] }
    "777" rfl (by decide) rfl (by decide) rfl (by decide)
  exact ⟨rfl, h.2.2⟩

/-- C1 counterexample: the pair (mortgage `111`, second satisfaction) has
exact instrument-number equality, yet the mortgage was already consumed by
the first satisfaction (lender 20 + grantor 10 + temporal 5 = 35 ≥ 30), so
the second satisfaction is not matched to it — instrument-number equality
does not always win. -/
theorem instrument_match_counterexample :
    let M : Document := { instrumentNumber := some "111",
                          grantors := ["ALICE JONES"],
                          recordTimestamp := 0,
                          extractedData := some (.mortgage
                            { lenderName := some "WELLS FARGO BANK" }) }
    let S1 : Document := { instrumentNumber := some "901",
                           grantors := ["ALICE SMITH"],
                           recordTimestamp := 100,
                           extractedData := some (.satisfaction
                             { originalLender := some "WELLS FARGO" }) }
    let S2 : Document := { instrumentNumber := some "902",
                           recordTimestamp := 200,
                           extractedData := some (.satisfaction
                             { satisfiedInstrumentNumber := some "111" }) }
    (edSatInstr S2.extractedData = some "111" ∧
     M.instrumentNumber = some "111") ∧
    ((matchSatisfactionsToMortgages [M] [S1, S2]).matchList.map
      (fun e => (e.satisfaction.instrumentNumber,
                 e.mortgage.instrumentNumber)) =
      [(some "901", some "111")]) ∧
    ((matchSatisfactionsToMortgages [M] [S1, S2]).matchList.all
      (fun e => e.satisfaction != S2)) = true ∧
    (matchSatisfactionsToMortgages [M] [S1, S2]).unmatchedSatisfactions =
      [S2] := by
  refine ⟨⟨rfl, rfl⟩, by decide, by decide, by decide⟩

end AhtBot
